import Mathlib

/-!
Verification development for the CSV Data Analysis Agent Assistant.

The repository is a TypeScript application.  This file shallowly embeds the
pure computational core that the specification's claims are about:

* `src/utils/dataProcessor.ts` (and its variants in the unnamed source files):
  `parseNumericValue`, `profileData`, `executePlan`, `applyTopNWithOthers`,
  `executeJavaScriptDataTransform`;
* `src/services/ai/toolValidator.ts` (unnamed part_009, second half):
  `validateAction` and its per-tag helpers;
* `src/store/slices/chatSlice.ts`: the validate-then-execute batch logic of
  `handleChatMessage`, `executeDomAction`, and the `execute_js_code` branch;
* `src/services/geminiService.ts`: `isValidPlan`, `robustlyParseJsonArray`,
  the pure two-stage composition inside `generateAnalysisPlans`, and the
  dry-run control flow of `generateDataPreparationPlan`.

Modelling conventions:

* JavaScript strings are embedded as `Str := List Char`; the helper `str`
  converts a Lean string literal.
* JavaScript numbers are embedded as `ℚ` (exact arithmetic).  The claims under
  study never depend on floating-point rounding.
* A cell of a row is a string or a number; a missing property (`undefined`)
  is `Option.none`.  Rows are insertion-ordered association lists, which is
  how the code builds its plain-object rows.  (JavaScript additionally
  enumerates integer-like keys first; no claim below depends on enumeration
  order, so insertion order is used throughout.)
* `Number(x)` is embedded by `jsNumber`, covering the decimal formats the
  repository ever feeds it (optional sign, integer and fractional digits,
  the empty string parsing as `0`).  Exponent/hexadecimal/`Infinity` inputs
  are mapped to `none` (NaN); no claim exercises them.
* Fallible JavaScript code (`throw`) is embedded with `Option`.
-/

/-! ## JavaScript strings and numbers -/

/-- A JavaScript string, embedded as a list of characters. -/
abbrev Str := List Char

/-- Converts a Lean string literal into the embedded string type. -/
def str (s : String) : Str := s.data

/-- The whitespace characters trimmed by the embedding of `String.trim` /
`\s` (space, tab, newline, carriage return, vertical tab, form feed). -/
def jsWs (c : Char) : Bool :=
  c = ' ' || c = '\t' || c = '\n' || c = '\r' || c = '\x0b' || c = '\x0c'

/-- Removes trailing whitespace. -/
def trimTrail (s : Str) : Str := ((s.reverse).dropWhile jsWs).reverse

/-- Embeds JavaScript `String.prototype.trim`. -/
def jsTrim (s : Str) : Str := trimTrail (s.dropWhile jsWs)

/-- Digit list to natural number, most significant first. -/
def digitsToNat (ds : Str) : Nat :=
  ds.foldl (fun a c => 10 * a + (c.toNat - 48)) 0

/-- Embeds JavaScript `Number(string)` on the formats used by the repository:
optional sign, decimal digits with an optional fractional part; the empty
string (after trimming) is `0`.  `none` stands for `NaN`. -/
def jsNumber (s : Str) : Option ℚ :=
  let t := jsTrim s
  if t.isEmpty then some 0 else
  let core := fun (u : Str) (sign : ℚ) =>
    let intPart := u.takeWhile Char.isDigit
    let rest := u.dropWhile Char.isDigit
    match rest with
    | [] => if intPart.isEmpty then none else some (sign * digitsToNat intPart)
    | '.' :: r =>
      let fracPart := r.takeWhile Char.isDigit
      let rest2 := r.dropWhile Char.isDigit
      if !rest2.isEmpty then none
      else if intPart.isEmpty && fracPart.isEmpty then none
      else some (sign * ((digitsToNat intPart : ℚ) +
        (digitsToNat fracPart : ℚ) / (10 : ℚ) ^ fracPart.length))
    | _ => none
  match t with
  | '+' :: u => core u 1
  | '-' :: u => core u (-1)
  | u => core u 1

/-- Decimal digits of a natural number, most significant first (structural on
a fuel bound so that it evaluates by kernel reduction; `natToStr` supplies
sufficient fuel). -/
def natToStrAux (fuel : Nat) (n : Nat) : Str :=
  match fuel with
  | 0 => []
  | f + 1 =>
    if n < 10 then [Char.ofNat (48 + n)]
    else natToStrAux f (n / 10) ++ [Char.ofNat (48 + n % 10)]

/-- Decimal digits of a natural number, most significant first. -/
def natToStr (n : Nat) : Str := natToStrAux (n + 1) n

/-- Decimal rendering of an integer. -/
def intToStr (n : Int) : Str :=
  if n < 0 then '-' :: natToStr n.natAbs else natToStr n.natAbs

/-! ## Cells and rows -/

/-- A cell value: a JavaScript string or number (`CsvRow` leaf values). -/
inductive Cell where
  | str (s : Str)
  | num (q : ℚ)
deriving DecidableEq

/-- A row object: an insertion-ordered association list from column name to
cell.  `Option.none` on lookup models an absent property (`undefined`). -/
abbrev Row := List (Str × Cell)

/-- Property read `row[key]`; `none` is `undefined`. -/
def objGet (r : Row) (k : Str) : Option Cell :=
  (r.find? (fun p => p.1 = k)).map Prod.snd

/-- Property write `row[key] = v` (overwrites in place, else appends). -/
def objSet (r : Row) (k : Str) (v : Cell) : Row :=
  if r.any (fun p => p.1 = k) then
    r.map (fun p => if p.1 = k then (k, v) else p)
  else r ++ [(k, v)]

/-- JavaScript `String(x)` on a cell or `undefined`.  Non-integer numbers
never reach this function in the repository (cells coming from the CSV
parser are strings), so their rendering is a simple `num/den` form. -/
def jsToString (c : Option Cell) : Str :=
  match c with
  | none => str "undefined"
  | some (.str s) => s
  | some (.num q) =>
    if q.den = 1 then intToStr q.num else intToStr q.num ++ '/' :: natToStr q.den

/-- JavaScript `Number(x) || 0` on a cell read: `undefined` and unparsable
strings (NaN) collapse to `0`. -/
def numOr0 (c : Option Cell) : ℚ :=
  match c with
  | none => 0
  | some (.num q) => q
  | some (.str s) => (jsNumber s).getD 0

/-! ## dataProcessor: parseNumericValue and profileData -/

/-- Embeds `parseNumericValue` (src/utils/dataProcessor.ts:18-29, identical in
unnamed part_004:13-23): `null`/`undefined`/blank give `null`; otherwise the
string is cleaned by deleting every `$`, `€`, `,` character (the regex
`/[$€,]/g`; dataProcessor.ts spells the same class with a mojibake encoding
of `€`), trimmed, and passed to `Number`.  Note the regex does NOT delete
`%`, although the comment above it says "remove ... trailing %". -/
def parseNumericValue (v : Option Cell) : Option ℚ :=
  match v with
  | none => none
  | some c =>
    if jsTrim (jsToString (some c)) = [] then none
    else
      let cleaned := jsTrim ((jsToString (some c)).filter
        (fun ch => !(ch = '$' || ch = '€' || ch = ',')))
      jsNumber cleaned

/-- Column type assigned by the profiler. -/
inductive CType where
  | numerical
  | categorical
deriving DecidableEq

/-- Embeds the `ColumnProfile` fields computed by `profileData`. -/
structure ColumnProfile where
  name : Str
  ctype : CType
  uniqueValues : Option Nat := none
  valueRange : Option (ℚ × ℚ) := none
  missingPercentage : ℚ
deriving DecidableEq

/-- A cell is "non-empty" for the profiler's loop when its stringification
does not trim to the empty string (`value !== null && String(value).trim()
!== ''`; an `undefined` cell stringifies to `"undefined"`, hence counts as
non-empty). -/
def profNonEmpty (v : Option Cell) : Bool :=
  !(jsTrim (jsToString v)).isEmpty

/-- Minimum of a list of rationals (`Math.min(...xs)`; only ever applied to a
non-empty list by `profileData`). -/
def listMin (l : List ℚ) : ℚ :=
  match l with
  | [] => 0
  | x :: xs => xs.foldl min x

/-- Maximum of a list of rationals (`Math.max(...xs)`). -/
def listMax (l : List ℚ) : ℚ :=
  match l with
  | [] => 0
  | x :: xs => xs.foldl max x

/-- Profiles one column given all its cell reads and the row count
(the per-header body of `profileData`, src/utils/dataProcessor.ts:60-92).
The source's loop sets `isNumerical := false` and breaks at the first
non-empty cell that fails `parseNumericValue`; after the loop it takes the
numerical branch iff `isNumerical && numericCount > 0`, where `numericCount`
counts the non-empty cells seen (equal to all of them when no break fired). -/
def profileColumn (header : Str) (values : List (Option Cell)) (n : Nat) :
    ColumnProfile :=
  let isNumerical := values.all
    (fun v => !profNonEmpty v || (parseNumericValue v).isSome)
  let numericCount := values.countP profNonEmpty
  if isNumerical && numericCount > 0 then
    let numericValues := values.filterMap parseNumericValue
    { name := header
      ctype := .numerical
      valueRange := some (listMin numericValues, listMax numericValues)
      missingPercentage := (1 - (numericValues.length : ℚ) / (n : ℚ)) * 100 }
  else
    { name := header
      ctype := .categorical
      uniqueValues := some ((values.map jsToString).dedup).length
      missingPercentage :=
        ((values.countP (fun v => (jsTrim (jsToString v)).isEmpty) : ℚ) /
          (n : ℚ)) * 100 }

/-- Embeds `profileData` (src/utils/dataProcessor.ts:55-95): empty data gives
no profiles; otherwise one profile per key of the first row. -/
def profileData (data : List Row) : List ColumnProfile :=
  match data with
  | [] => []
  | r0 :: _ =>
    (r0.map Prod.fst).map (fun header =>
      profileColumn header (data.map (fun row => objGet row header)) data.length)

/-! ## dataProcessor: executePlan -/

/-- Embeds `AnalysisPlan` as consumed by the executable core.  Every field the
model may omit is an `Option`; JavaScript truthiness on a string field is
`truthyS`. -/
structure Plan where
  chartType : Option Str := none
  title : Option Str := none
  description : Option Str := none
  aggregation : Option Str := none
  groupByColumn : Option Str := none
  valueColumn : Option Str := none
  xValueColumn : Option Str := none
  yValueColumn : Option Str := none
  secondaryValueColumn : Option Str := none
  secondaryAggregation : Option Str := none
  defaultTopN : Option Int := none
  defaultHideOthers : Option Bool := none
deriving DecidableEq

/-- JavaScript truthiness of an optional string: missing and `''` are falsy. -/
def truthyS (o : Option Str) : Bool :=
  match o with
  | none => false
  | some s => !s.isEmpty

/-- JavaScript property-key coercion: an `undefined` column name indexes the
literal key `"undefined"`. -/
def keyOf (o : Option Str) : Str := o.getD (str "undefined")

/-- Appends a parsed value to the bucket of `k` in the ordered group map. -/
def pushVal (gs : List (Str × List ℚ)) (k : Str) (v : ℚ) : List (Str × List ℚ) :=
  gs.map (fun p => if p.1 = k then (p.1, p.2 ++ [v]) else p)

/-- One `data.forEach` step of `executePlan`'s grouping loop
(src/utils/dataProcessor.ts:102-119): skip rows whose stringified group key is
`'undefined'` or `'null'`; otherwise ensure the bucket exists, then push the
parsed value-cell (when a truthy `valueColumn` is present) or a unit `1`
(when the aggregation is `count` and no value column is given). -/
def groupStep (plan : Plan) (gs : List (Str × List ℚ)) (row : Row) :
    List (Str × List ℚ) :=
  let groupKey := jsToString (objGet row (keyOf plan.groupByColumn))
  if groupKey = str "undefined" || groupKey = str "null" then gs
  else
    let gs := if gs.any (fun p => p.1 = groupKey) then gs
              else gs ++ [(groupKey, ([] : List ℚ))]
    if truthyS plan.valueColumn then
      match parseNumericValue (objGet row (keyOf plan.valueColumn)) with
      | some v => pushVal gs groupKey v
      | none => gs
    else if plan.aggregation = some (str "count") then pushVal gs groupKey 1
    else gs

/-- The grouping pass of `executePlan`. -/
def buildGroups (data : List Row) (plan : Plan) : List (Str × List ℚ) :=
  data.foldl (groupStep plan) []

/-- The per-group reduction of `executePlan` (its `switch (aggregation)`);
`none` embeds the `throw` on an unsupported aggregation.  `avg` of an empty
bucket is defined as `0` (part_004:174 guards the division; dataProcessor.ts
uses `values.length || 1`, which agrees). -/
def aggValue (agg : Option Str) (vs : List ℚ) : Option ℚ :=
  if agg = some (str "sum") then some (vs.foldl (· + ·) 0)
  else if agg = some (str "count") then some (vs.length : ℚ)
  else if agg = some (str "avg") then
    some (if vs.length = 0 then 0 else (vs.foldl (· + ·) 0) / (vs.length : ℚ))
  else none

/-- Fail-fast left-to-right traversal with `Option` (the behaviour of the
per-group loop, which throws at the first unsupported aggregation). -/
def traverseOption {α β : Type} (g : α → Option β) : List α → Option (List β)
  | [] => some []
  | x :: xs =>
    match g x with
    | none => none
    | some y => (traverseOption g xs).map (fun ys => y :: ys)

/-- The stable descending sort by the final value column
(`aggregatedResult.sort((a, b) => (Number(b[col]) || 0) - (Number(a[col]) || 0))`;
JavaScript `Array.prototype.sort` is stable, modelled by a stable insertion
sort under the comparator's "a may precede b" relation). -/
def sortByValueDesc (col : Str) (rows : List Row) : List Row :=
  rows.insertionSort (fun a b => numOr0 (objGet b col) ≤ numOr0 (objGet a col))

/-- Embeds `executePlan` (src/utils/dataProcessor.ts:97-153 and unnamed
part_004:135-191).  `none` embeds a thrown `Unsupported aggregation type`
error (raised inside the per-group loop, hence only when a group exists). -/
def executePlan (data : List Row) (plan : Plan) : Option (List Row) :=
  (traverseOption (fun p =>
      (aggValue plan.aggregation p.2).map (fun rv =>
        objSet (objSet [] (keyOf plan.groupByColumn) (.str p.1))
          (if truthyS plan.valueColumn then keyOf plan.valueColumn
           else str "count") (.num rv))) (buildGroups data plan)).map
    (sortByValueDesc
      (if truthyS plan.valueColumn then keyOf plan.valueColumn
       else str "count"))

/-! ## dataProcessor: applyTopNWithOthers -/

/-- JavaScript `Array.prototype.slice(0, e)` (negative `e` counts from the
end). -/
def jsSliceTake (l : List Row) (e : Int) : List Row :=
  if e < 0 then l.take (l.length - e.natAbs) else l.take e.toNat

/-- JavaScript `Array.prototype.slice(s)` (negative `s` counts from the
end). -/
def jsSliceFrom (l : List Row) (s : Int) : List Row :=
  if s < 0 then l.drop (l.length - s.natAbs) else l.drop s.toNat

/-- Embeds `applyTopNWithOthers` (src/components/FinalSummary.tsx:38-58 and
unnamed part_004:25-45): identity when `data.length ≤ topN`; otherwise sort
descending by `Number(row[valueKey]) || 0`, keep the first `topN - 1` rows and
fold the rest into an `Others` row carrying their sum. -/
def applyTopNWithOthers (data : List Row) (groupByKey valueKey : Str)
    (topN : Int) : List Row :=
  if (data.length : Int) ≤ topN then data
  else
    let sortedData := data.insertionSort
      (fun a b => numOr0 (objGet b valueKey) ≤ numOr0 (objGet a valueKey))
    let topData := jsSliceTake sortedData (topN - 1)
    let otherData := jsSliceFrom sortedData (topN - 1)
    if otherData.length > 0 then
      let otherSum := otherData.foldl (fun acc row => acc + numOr0 (objGet row valueKey)) 0
      topData ++ [objSet (objSet [] groupByKey (.str (str "Others"))) valueKey (.num otherSum)]
    else topData

/-! ## dataProcessor: executeJavaScriptDataTransform -/

/-- The observable outcome of invoking a model-authored transform function:
an array of row objects (possibly empty), an array whose first element is not
an object, a non-array value, or a thrown exception. -/
inductive JsOut where
  | arrObjs (rows : List Row)
  | arrBad
  | notArray
  | threw
deriving DecidableEq

/-- The semantics of a model-authored function body: what it does on a given
dataset.  The body itself is untrusted text; the embedding abstracts it by
its behaviour. -/
abbrev Transform := List Row → JsOut

/-- `Array.isArray(result)`. -/
def jsOutIsArray (o : JsOut) : Bool :=
  match o with
  | .arrObjs _ => true
  | .arrBad => true
  | _ => false

/-- Embeds `executeJavaScriptDataTransform` (unnamed part_004:113-132): run
the compiled function on `data`; throw unless the result is an array whose
first element (if any) is an object.  `none` embeds the rethrown error. -/
def executeJavaScriptDataTransform (data : List Row) (f : Transform) :
    Option (List Row) :=
  match f data with
  | .arrObjs rows => some rows
  | _ => none

/-! ## toolValidator (unnamed part_009): validateAction -/

/-- `domAction.args` as accessed by the validator and the executors. -/
structure DomArgs where
  cardId : Str := []
  newType : Option Str := none
  visible : Option Bool := none
  column : Str := []
  values : Option (List Str) := none
deriving DecidableEq

/-- A `dom_action` payload.  The TypeScript type requires `args`; the
validator still guards `!domAction.args`, so it is optional here.  (The
later tool-specific checks in the source dereference `domAction.args`
unconditionally; the embedding reads them through a default, which can only
differ from the source on actions whose `args` object is missing entirely —
inputs on which the source itself would throw inside validation, which
likewise executes nothing.) -/
structure DomAction where
  toolName : Str := []
  args : Option DomArgs := none
deriving DecidableEq

/-- An `execute_js_code` payload as seen by the validator (strings only;
the body's behaviour is irrelevant to validation). -/
structure CodePayload where
  explanation : Str := []
  jsFunctionBody : Str := []
deriving DecidableEq

/-- A `filter_spreadsheet` payload. -/
structure FilterArgs where
  query : Str := []
deriving DecidableEq

/-- A `{label, value}` clarification option. -/
structure ClarOption where
  label : Str := []
  value : Str := []
deriving DecidableEq

/-- A `clarification_request` payload. -/
structure ClarificationRequest where
  question : Str := []
  pendingPlan : Option Plan := none
  targetProperty : Str := []
  options : Option (List ClarOption) := none
deriving DecidableEq

/-- An `AiAction` as consumed by `validateAction` and the orchestrator. -/
structure AiAction where
  responseType : Str := []
  thought : Str := []
  text : Str := []
  cardId : Str := []
  plan : Option Plan := none
  domAction : Option DomAction := none
  code : Option CodePayload := none
  args : Option FilterArgs := none
  clarification : Option ClarificationRequest := none
deriving DecidableEq

/-- `{ isValid, errors }`. -/
structure ValidationResult where
  isValid : Bool
  errors : Str
deriving DecidableEq

/-- Renders an optional string inside a template literal (`undefined` when
missing, as JavaScript interpolation does). -/
def interpS (o : Option Str) : Str :=
  match o with
  | none => str "undefined"
  | some s => s

/-- The allowed aggregations (`ALLOWED_AGGREGATIONS`). -/
def allowedAggregations : List Str := [str "sum", str "count", str "avg"]

/-- Embeds `validatePlanCreation` (part_009:146-184). -/
def validatePlanCreation (plan : Option Plan) : List Str :=
  match plan with
  | none => [str "The \"plan\" object is missing or invalid."]
  | some p =>
    let errs : List Str :=
      (if !truthyS p.title then [str "\"plan.title\" is a required string."] else []) ++
      (if !truthyS p.chartType then [str "\"plan.chartType\" is a required string."] else [])
    if p.chartType = some (str "scatter") then
      errs ++
      (if !truthyS p.xValueColumn then [str "For scatter plots, 'xValueColumn' is required."] else []) ++
      (if !truthyS p.yValueColumn then [str "For scatter plots, 'yValueColumn' is required."] else []) ++
      (if truthyS p.aggregation then [str "For scatter plots, 'aggregation' must not be provided."] else []) ++
      (if truthyS p.groupByColumn then [str "For scatter plots, 'groupByColumn' must not be provided."] else [])
    else if p.chartType = some (str "combo") then
      errs ++
      (if !truthyS p.groupByColumn then [str "For combo charts, 'groupByColumn' is required."] else []) ++
      (if !truthyS p.valueColumn then [str "For combo charts, 'valueColumn' is required."] else []) ++
      (if !truthyS p.aggregation then [str "For combo charts, 'aggregation' is required."] else []) ++
      (if !truthyS p.secondaryValueColumn then [str "For combo charts, 'secondaryValueColumn' is required."] else []) ++
      (if !truthyS p.secondaryAggregation then [str "For combo charts, 'secondaryAggregation' is required."] else []) ++
      (if truthyS p.aggregation && !(allowedAggregations.contains (interpS p.aggregation)) then
        [str "Unsupported aggregation type '" ++ interpS p.aggregation ++
          str "'. Must be one of: sum, count, avg."] else []) ++
      (if truthyS p.secondaryAggregation && !(allowedAggregations.contains (interpS p.secondaryAggregation)) then
        [str "Unsupported secondaryAggregation type '" ++ interpS p.secondaryAggregation ++
          str "'. Must be one of: sum, count, avg."] else [])
    else
      errs ++
      (if !truthyS p.aggregation then
        [str "For '" ++ interpS p.chartType ++ str "' charts, 'aggregation' is required."] else []) ++
      (if !truthyS p.groupByColumn then
        [str "For '" ++ interpS p.chartType ++ str "' charts, 'groupByColumn' is required."] else []) ++
      (if truthyS p.aggregation && !(allowedAggregations.contains (interpS p.aggregation)) then
        [str "Unsupported aggregation type '" ++ interpS p.aggregation ++
          str "'. Must be one of: sum, count, avg."] else []) ++
      (if p.aggregation ≠ some (str "count") && !truthyS p.valueColumn then
        [str "For '" ++ interpS p.aggregation ++ str "' aggregation, 'valueColumn' is required."] else [])

/-- `context.cardIds.join(', ')`. -/
def joinSep (sep : Str) (l : List Str) : Str :=
  match l with
  | [] => []
  | [x] => x
  | x :: xs => x ++ sep ++ joinSep sep xs

/-- Embeds `validateDomAction` (part_009:186-210). -/
def validateDomAction (domAction : Option DomAction) (cardIds : List Str) :
    List Str :=
  match domAction with
  | none => [str "The \"domAction\" object is missing for a \"dom_action\" responseType."]
  | some d =>
    let args := d.args.getD {}
    (if d.toolName.isEmpty then [str "\"domAction.toolName\" is required."] else []) ++
    (if d.args.isNone || args.cardId.isEmpty then
      [str "\"domAction.args.cardId\" is required."]
    else if !(cardIds.contains args.cardId) then
      [str "\"domAction.args.cardId\" ('" ++ args.cardId ++
        str "') is invalid. It must be one of the existing card IDs: [" ++
        joinSep (str ", ") cardIds ++ str "]."]
    else []) ++
    (if d.toolName = str "changeCardChartType" && !truthyS args.newType then
      [str "For 'changeCardChartType', 'domAction.args.newType' is required."] else []) ++
    (if d.toolName = str "showCardData" && args.visible.isNone then
      [str "For 'showCardData', 'domAction.args.visible' is required and must be a boolean."] else []) ++
    (if d.toolName = str "filterCard" then
      (if args.column.isEmpty then [str "For 'filterCard', 'domAction.args.column' is required."] else []) ++
      (if args.values.isNone then
        [str "For 'filterCard', 'domAction.args.values' is required and must be an array."] else [])
    else [])

/-- Embeds `validateExecuteJsCode` (part_009:212-220). -/
def validateExecuteJsCode (code : Option CodePayload) : List Str :=
  match code with
  | none => [str "The \"code\" object is missing for an \"execute_js_code\" responseType."]
  | some c =>
    (if c.explanation.isEmpty then [str "\"code.explanation\" is required."] else []) ++
    (if c.jsFunctionBody.isEmpty then [str "\"code.jsFunctionBody\" is required."] else [])

/-- Embeds `validateFilterSpreadsheet` (part_009:222-227). -/
def validateFilterSpreadsheet (args : Option FilterArgs) : List Str :=
  match args with
  | none => [str "The \"args\" object is missing for a \"filter_spreadsheet\" responseType."]
  | some a => if a.query.isEmpty then [str "\"args.query\" is required."] else []

/-- Embeds `validateClarificationRequest` (part_009:229-247). -/
def validateClarificationRequest (clarification : Option ClarificationRequest) :
    List Str :=
  match clarification with
  | none => [str "The \"clarification\" object is missing for a \"clarification_request\" responseType."]
  | some c =>
    (if c.question.isEmpty then [str "\"clarification.question\" is required."] else []) ++
    (if c.pendingPlan.isNone then [str "\"clarification.pendingPlan\" is required."] else []) ++
    (if c.targetProperty.isEmpty then [str "\"clarification.targetProperty\" is required."] else []) ++
    (match c.options with
     | none => [str "\"clarification.options\" must be a non-empty array."]
     | some opts =>
       if opts.isEmpty then [str "\"clarification.options\" must be a non-empty array."]
       else (opts.enum.map (fun oi =>
         (if oi.2.label.isEmpty then [str "Option " ++ natToStr oi.1 ++ str " is missing \"label\"."] else []) ++
         (if oi.2.value.isEmpty then [str "Option " ++ natToStr oi.1 ++ str " is missing \"value\"."] else []))).flatten)

/-- Embeds `validateAction` (part_009:249-287): uniform `thought` /
`responseType` checks, the per-tag dispatch, and the error-report assembly. -/
def validateAction (action : AiAction) (cardIds : List Str) : ValidationResult :=
  let allErrors : List Str :=
    (if action.thought.isEmpty then [str "The 'thought' field is mandatory for every action."] else []) ++
    (if action.responseType.isEmpty then [str "The 'responseType' field is mandatory for every action."] else []) ++
    (if action.responseType = str "plan_creation" then validatePlanCreation action.plan
     else if action.responseType = str "dom_action" then validateDomAction action.domAction cardIds
     else if action.responseType = str "execute_js_code" then validateExecuteJsCode action.code
     else if action.responseType = str "filter_spreadsheet" then validateFilterSpreadsheet action.args
     else if action.responseType = str "clarification_request" then validateClarificationRequest action.clarification
     else if action.responseType = str "text_response" then
       (if action.text.isEmpty then [str "The \"text\" field is required for \"text_response\"."] else []) ++
       (if !action.cardId.isEmpty && !(cardIds.contains action.cardId) then
         [str "\"cardId\" ('" ++ action.cardId ++
           str "') is invalid. It must be one of the existing card IDs: [" ++
           joinSep (str ", ") cardIds ++ str "]."] else [])
     else [])
  if allErrors.length > 0 then
    let title :=
      if truthyS (action.plan.bind (·.title)) then interpS (action.plan.bind (·.title))
      else if truthyS (action.domAction.map (·.toolName)) then interpS (action.domAction.map (·.toolName))
      else action.responseType
    { isValid := false
      errors := str "- Action \"" ++ title ++ str "\" (thought: \"" ++
        (if action.thought.isEmpty then str "N/A" else action.thought) ++
        str "\") failed validation:\n  - " ++ joinSep (str "\n  - ") allErrors }
  else { isValid := true, errors := [] }

/-! ## chatSlice: batch validation gate and executeDomAction -/

/-- The batch gate of `handleChatMessage` (src/store/slices/chatSlice.ts:49-66):
every action of the model's response is validated first; the execution loop
runs only when the collected error list is empty (otherwise the attempt
retries or fails, executing nothing). -/
def executedActions (actions : List AiAction) (cardIds : List Str) :
    List AiAction :=
  let validationErrors :=
    ((actions.map (fun a => validateAction a cardIds)).filter
      (fun v => !v.isValid)).map (fun v => v.errors)
  if validationErrors.length > 0 then [] else actions

/-- The slice of an analysis card that `executeDomAction` can read or write,
plus its identifier.  (The remaining card fields — plan, aggregated data,
summary — are never touched by `executeDomAction`.) -/
structure CardView where
  id : Str
  displayChartType : Option Str := none
  isDataVisible : Option Bool := none
  filter : Option (Str × List Str) := none
deriving DecidableEq

/-- The store state visible to `executeDomAction`: the card list and the
progress log (`addProgress` appends to the latter). -/
structure ChatState where
  analysisCards : List CardView
  progressMessages : List Str
deriving DecidableEq

/-- The progress entry `executeDomAction` always logs first. -/
def domActionProgress (action : DomAction) : Str :=
  str "AI is performing action: " ++ action.toolName ++ str "..."

/-- The per-tool mutation of the matched card (the `switch` of
chatSlice.ts:27-36).  `highlightCard` only touches the DOM, never the store. -/
def applyDomTool (c : CardView) (toolName : Str) (args : DomArgs) : CardView :=
  if toolName = str "changeCardChartType" then { c with displayChartType := args.newType }
  else if toolName = str "showCardData" then { c with isDataVisible := args.visible }
  else if toolName = str "filterCard" then
    { c with filter := if (args.values.getD []).length > 0
                       then some (args.column, args.values.getD []) else none }
  else c

/-- Embeds `executeDomAction` (src/store/slices/chatSlice.ts:21-39): log a
progress message, then look the target card up by `args.cardId`; when the
lookup fails (`findIndex` returns `-1`) the updater returns `{}` and the
store is left as it is. -/
def executeDomAction (s : ChatState) (action : DomAction) : ChatState :=
  let s1 : ChatState :=
    { s with progressMessages := s.progressMessages ++ [domActionProgress action] }
  let args := action.args.getD {}
  match s1.analysisCards.findIdx? (fun c => c.id = args.cardId) with
  | none => s1
  | some idx =>
    { s1 with analysisCards :=
        s1.analysisCards.mapIdx (fun i c =>
          if i = idx then applyDomTool c action.toolName args else c) }

/-! ## Transform execution traces (data preparation vs. chat turn) -/

/-- One invocation of a model-authored transform: the number of rows it was
run against and its outcome. -/
structure ExecEvent where
  size : Nat
  out : JsOut
deriving DecidableEq

/-- `Array.isArray(result) && (result.length === 0 || typeof result[0] ===
'object')`: the dry-run success the claim demands (an array of objects). -/
def jsOutIsArrObjs (o : JsOut) : Bool :=
  match o with
  | .arrObjs _ => true
  | _ => false

/-- The claim's dry-run discipline over a chronological trace: every run
against the full dataset is preceded by a run against at most 20 rows whose
outcome satisfies `good`. -/
def dryRunBefore (fullSize : Nat) (good : JsOut → Bool) (tr : List ExecEvent) :
    Prop :=
  ∀ (i : Nat) (ev : ExecEvent), tr[i]? = some ev → ev.size = fullSize →
    ∃ (j : Nat) (ev' : ExecEvent),
      j < i ∧ tr[j]? = some ev' ∧ ev'.size ≤ 20 ∧ good ev'.out

/-- The data-preparation plan as the dry-run control flow sees it: the
optional transform (semantics of `jsFunctionBody`; `none` is the identity
"no transformation" case). -/
structure PrepPlan where
  jsFunctionBody : Option Transform

/-- The model's (parsed) response at each retry attempt of
`generateDataPreparationPlan`; `none` embeds a transport/parse failure of
that attempt. -/
abbrev PrepModel := Nat → Option PrepPlan

/-- The retry loop of `generateDataPreparationPlan`
(src/services/geminiService.ts:164-237) reduced to its execution trace: at
each of the three attempts, a response with a function body is dry-run
against the sample; if `Array.isArray` holds on the result the plan is
accepted, otherwise the loop retries with the error as feedback.  Returns the
accepted plan (if any) and the chronological trace of sample runs. -/
def prepAttempts (model : PrepModel) (sampleData : List Row) :
    Nat → Nat → Option PrepPlan × List ExecEvent
  | 0, _ => (none, [])
  | n + 1, i =>
    match model i with
    | none => prepAttempts model sampleData n (i + 1)
    | some plan =>
      match plan.jsFunctionBody with
      | some f =>
        let ev : ExecEvent := ⟨sampleData.length, f sampleData⟩
        if jsOutIsArray (f sampleData) then (some plan, [ev])
        else
          let r := prepAttempts model sampleData n (i + 1)
          (r.1, ev :: r.2)
      | none => (some plan, [])

/-- The data-preparation path of `handleFileUpload` (unnamed part_005:108-117)
as an execution trace: `generateDataPreparationPlan` is called on
`data.slice(0, 20)`; when it returns a plan with a function body,
`executeJavaScriptDataTransform` then runs that body on the full dataset. -/
def handleFileUploadExecEvents (model : PrepModel) (data : List Row) :
    List ExecEvent :=
  let sample := data.take 20
  let r := prepAttempts model sample 3 0
  match r.1 with
  | some plan =>
    match plan.jsFunctionBody with
    | some f => r.2 ++ [⟨data.length, f data⟩]
    | none => r.2
  | none => r.2

/-- The `execute_js_code` branch of `handleChatMessage`
(src/store/slices/chatSlice.ts:62) as an execution trace: the body is run
once, directly against the full dataset `csvData.data`. -/
def chatExecuteJsEvents (data : List Row) (f : Transform) : List ExecEvent :=
  [⟨data.length, f data⟩]

/-! ## geminiService: isValidPlan and the two-stage plan pipeline -/

/-- Embeds `isValidPlan` (src/services/geminiService.ts:38-63). -/
def isValidPlan (p : Plan) : Bool :=
  if !truthyS p.chartType || !truthyS p.title then false
  else if p.chartType = some (str "scatter") then
    truthyS p.xValueColumn && truthyS p.yValueColumn
  else
    truthyS p.aggregation && truthyS p.groupByColumn &&
    allowedAggregations.contains (interpS p.aggregation) &&
    (p.aggregation = some (str "count") || truthyS p.valueColumn)

/-- Stage-2 sample review of one candidate (the `plansWithDataForReview`
mapper of geminiService.ts:362-375): keep the candidate iff executing it on
the sample yields at least one row; an execution throw is caught and drops
the candidate. -/
def reviewSample (sampleData : List Row) (plan : Plan) : Option (Plan × List Row) :=
  match executePlan sampleData plan with
  | some aggregatedSample =>
    if aggregatedSample.length > 0 then some (plan, aggregatedSample.take 20)
    else none
  | none => none

/-- The fallback policy of `generateAnalysisPlans` (geminiService.ts:386-392):
when fewer than 4 refined plans came back *and* there are more candidates
than refined plans, append the candidates whose titles were not selected,
in candidate order, up to 4 plans in total. -/
def backfillPlans (candidatePlans refinedPlans : List Plan) : List Plan :=
  if refinedPlans.length < 4 && candidatePlans.length > refinedPlans.length then
    refinedPlans ++
      (candidatePlans.filter (fun p =>
        !((refinedPlans.map (fun q => q.title)).contains p.title))).take
        (4 - refinedPlans.length)
  else refinedPlans

/-- The pure composition at the heart of `generateAnalysisPlans`
(src/services/geminiService.ts:346-394), parameterised by the two model
responses: `candidatesRaw` is Stage A's parsed output (filtered by
`isValidPlan` inside `generateCandidatePlans`), `refinedRaw` is Stage B's
parsed and normalised output (filtered by `isValidPlan` inside
`refineAndConfigurePlans`).  Candidates are executed on the sample; those
whose aggregation produces no rows (or throws) are dropped; the fallback
backfills from unselected candidates only when there are more candidates
than refined plans; the final list is capped at 12. -/
def generateAnalysisPlansCore (candidatesRaw : List Plan)
    (sampleData : List Row) (refinedRaw : List Plan) : List Plan :=
  if (candidatesRaw.filter isValidPlan).isEmpty then []
  else if ((candidatesRaw.filter isValidPlan).filterMap
      (reviewSample sampleData)).isEmpty then
    (candidatesRaw.filter isValidPlan).take 4
  else
    (backfillPlans (candidatesRaw.filter isValidPlan)
      (refinedRaw.filter isValidPlan)).take 12

/-! ## geminiService: robustlyParseJsonArray

The function strips a markdown code fence with the lazy regex
`/```(?:json)?\s*([\s\S]*?)\s*```/`, then applies `JSON.parse` and unwraps
the result.  `JSON.parse`/`JSON.stringify` are modelled on the value grammar
the plan pipeline exchanges: strings (with escapes), integer numbers,
booleans, `null`, arrays and objects, nested arbitrarily.  (`JSON.parse`
also accepts insignificant whitespace between tokens; the inputs built in
this development contain none — `JSON.stringify` emits none and the fence
extractor strips the surrounding whitespace — so the parser model omits
whitespace skipping.  Fractional numbers do not occur in plan objects.) -/

/-- A JSON value. -/
inductive Jv where
  | null
  | bool (b : Bool)
  | int (n : Int)
  | str (s : Str)
  | arr (xs : List Jv)
  | obj (fs : List (Str × Jv))

/-- A lowercase hexadecimal digit. -/
def hexDig (d : Nat) : Char :=
  if d < 10 then Char.ofNat (48 + d) else Char.ofNat (87 + d)

/-- `JSON.stringify`'s escaping of one string character: quote and backslash
get a backslash; the control characters below 0x20 get their short escape or
a `\u00..` escape; everything else is copied verbatim. -/
def escapeChar (c : Char) : Str :=
  if c = '"' then ['\\', '"']
  else if c = '\\' then ['\\', '\\']
  else if c = '\x08' then ['\\', 'b']
  else if c = '\t' then ['\\', 't']
  else if c = '\n' then ['\\', 'n']
  else if c = '\x0c' then ['\\', 'f']
  else if c = '\r' then ['\\', 'r']
  else if c.toNat < 32 then
    ['\\', 'u', '0', '0', hexDig (c.toNat / 16), hexDig (c.toNat % 16)]
  else [c]

/-- Escapes a whole string body. -/
def escapeList (s : Str) : Str :=
  match s with
  | [] => []
  | c :: cs => escapeChar c ++ escapeList cs

mutual
/-- `JSON.stringify` on the modelled value grammar (no whitespace). -/
def jsonStringify : Jv → Str
  | .null => str "null"
  | .bool true => str "true"
  | .bool false => str "false"
  | .int n => intToStr n
  | .str s => '"' :: (escapeList s ++ ['"'])
  | .arr xs => '[' :: (stringifyElems xs ++ [']'])
  | .obj fs => '{' :: (stringifyFields fs ++ ['}'])
/-- Comma-separated renderings of array elements. -/
def stringifyElems : List Jv → Str
  | [] => []
  | [x] => jsonStringify x
  | x :: y :: xs => jsonStringify x ++ ',' :: stringifyElems (y :: xs)
/-- Comma-separated renderings of object members. -/
def stringifyFields : List (Str × Jv) → Str
  | [] => []
  | [(k, v)] => '"' :: (escapeList k ++ ['"']) ++ ':' :: jsonStringify v
  | (k, v) :: f :: fs =>
    '"' :: (escapeList k ++ ['"']) ++ ':' :: jsonStringify v ++ ',' :: stringifyFields (f :: fs)
end

/-- Value of a hexadecimal digit character. -/
def hexVal (c : Char) : Option Nat :=
  if '0' ≤ c && c ≤ '9' then some (c.toNat - 48)
  else if 'a' ≤ c && c ≤ 'f' then some (c.toNat - 87)
  else if 'A' ≤ c && c ≤ 'F' then some (c.toNat - 55)
  else none

/-- The single-character JSON escapes. -/
def unescapeChar (c : Char) : Option Char :=
  if c = '"' then some '"'
  else if c = '\\' then some '\\'
  else if c = '/' then some '/'
  else if c = 'b' then some '\x08'
  else if c = 'f' then some '\x0c'
  else if c = 'n' then some '\n'
  else if c = 'r' then some '\r'
  else if c = 't' then some '\t'
  else none

/-- Parses a string body after the opening quote, returning the decoded
characters and the input past the closing quote. -/
def parseStrBody : Str → Option (Str × Str)
  | [] => none
  | '"' :: r => some ([], r)
  | '\\' :: r =>
    match r with
    | 'u' :: a :: b :: c :: d :: r' =>
      match hexVal a, hexVal b, hexVal c, hexVal d with
      | some va, some vb, some vc, some vd =>
        (parseStrBody r').map (fun p =>
          (Char.ofNat (((va * 16 + vb) * 16 + vc) * 16 + vd) :: p.1, p.2))
      | _, _, _, _ => none
    | e :: r' =>
      match unescapeChar e with
      | some ch => (parseStrBody r').map (fun p => (ch :: p.1, p.2))
      | none => none
    | [] => none
  | c :: r => (parseStrBody r).map (fun p => (c :: p.1, p.2))

/-- Parses a non-empty run of decimal digits. -/
def parseDigits (s : Str) : Option (Nat × Str) :=
  let ds := s.takeWhile Char.isDigit
  if ds.isEmpty then none else some (digitsToNat ds, s.dropWhile Char.isDigit)

mutual
/-- Fuel-bounded JSON value parser (the fuel argument only ensures totality;
any fuel above the input length is enough). -/
def parseVal : Nat → Str → Option (Jv × Str)
  | 0, _ => none
  | fuel + 1, s =>
    match s with
    | 'n' :: 'u' :: 'l' :: 'l' :: r => some (.null, r)
    | 't' :: 'r' :: 'u' :: 'e' :: r => some (.bool true, r)
    | 'f' :: 'a' :: 'l' :: 's' :: 'e' :: r => some (.bool false, r)
    | '"' :: r => (parseStrBody r).map (fun p => (.str p.1, p.2))
    | '[' :: ']' :: r => some (.arr [], r)
    | '[' :: r => (parseElems fuel r).map (fun p => (.arr p.1, p.2))
    | '{' :: '}' :: r => some (.obj [], r)
    | '{' :: r => (parseFields fuel r).map (fun p => (.obj p.1, p.2))
    | '-' :: r => (parseDigits r).map (fun p => (.int (-(p.1 : Int)), p.2))
    | c :: r =>
      if c.isDigit then (parseDigits (c :: r)).map (fun p => (.int (p.1 : Int), p.2))
      else none
    | [] => none
  termination_by structural fuel _ => fuel
/-- Parses `v (',' v)* ']'` after an opening `[` with content. -/
def parseElems : Nat → Str → Option (List Jv × Str)
  | 0, _ => none
  | fuel + 1, s =>
    match parseVal fuel s with
    | none => none
    | some (v, r) =>
      match r with
      | ',' :: r' => (parseElems fuel r').map (fun p => (v :: p.1, p.2))
      | ']' :: r' => some ([v], r')
      | _ => none
  termination_by structural fuel _ => fuel
/-- Parses `"k":v (',' "k":v)* '}'` after an opening `{` with content. -/
def parseFields : Nat → Str → Option (List (Str × Jv) × Str)
  | 0, _ => none
  | fuel + 1, s =>
    match s with
    | '"' :: r =>
      match parseStrBody r with
      | none => none
      | some (k, r1) =>
        match r1 with
        | ':' :: r2 =>
          match parseVal fuel r2 with
          | none => none
          | some (v, r3) =>
            match r3 with
            | ',' :: r4 => (parseFields fuel r4).map (fun p => ((k, v) :: p.1, p.2))
            | '}' :: r4 => some ([(k, v)], r4)
            | _ => none
        | _ => none
    | _ => none
  termination_by structural fuel _ => fuel
end

/-- Embeds `JSON.parse` on whitespace-free input: parse one value and demand
the whole input is consumed; `none` is a thrown `SyntaxError`. -/
def jsonParse (s : Str) : Option Jv :=
  match parseVal (s.length + 1) s with
  | some (v, []) => some v
  | _ => none

/-- Holds when a string does not begin with a decimal digit, so that it
cannot extend a number literal placed before it (every rest produced while
parsing rendered JSON — `,`, `]`, `\x7d`, or the end of input — qualifies). -/
def noDigitHead : Str → Bool
  | [] => true
  | c :: _ => !c.isDigit

/-- Index of the first occurrence of three consecutive backticks. -/
def findTriple : Str → Option Nat
  | '`' :: '`' :: '`' :: _ => some 0
  | _ :: rest => (findTriple rest).map (· + 1)
  | [] => none

/-- The capture group of `/```(?:json)?\s*([\s\S]*?)\s*```/` on a string that
the regex matches, `none` when it does not match.  The regex engine finds the
leftmost opening fence, greedily consumes an optional `json` tag and leading
whitespace, and — because the group is lazy — ends the group at the first
closing fence, minus the whitespace immediately before it.  A crossing
occurrence of three backticks cannot be created by the tag or whitespace
consumption, so the match exists exactly when a second fence follows the
consumed prefix. -/
def extractFence (s : Str) : Option Str :=
  match findTriple s with
  | none => none
  | some i =>
    let afterOpen := s.drop (i + 3)
    let afterTag := if (str "json").isPrefixOf afterOpen then afterOpen.drop 4
                    else afterOpen
    let body := afterTag.dropWhile jsWs
    match findTriple body with
    | none => none
    | some r => some (trimTrail (body.take r))

/-- Embeds `robustlyParseJsonArray` (src/services/geminiService.ts:71-107):
trim, strip a markdown fence (an empty capture group is falsy and is
ignored), `JSON.parse`, then: an array is returned as is; an object yields
its first array-valued member, or — when it has `chartType` and `title`
members — itself as a singleton; anything else (or a parse failure) throws,
embedded as `none`. -/
def robustlyParseJsonArray (responseText : Str) : Option (List Jv) :=
  let content := jsTrim responseText
  let content :=
    match extractFence content with
    | some g => if !g.isEmpty then g else content
    | none => content
  match jsonParse content with
  | none => none
  | some v =>
    match v with
    | .arr xs => some xs
    | .obj fs =>
      match (fs.map Prod.snd).find? (fun w => match w with | .arr _ => true | _ => false) with
      | some (.arr ys) => some ys
      | _ =>
        if (fs.map Prod.fst).contains (str "chartType") &&
           (fs.map Prod.fst).contains (str "title") then some [.obj fs]
        else none
    | _ => none

/-! ## Derived notions used in theorem statements -/

/-- The group key a row contributes under a plan, `none` when `executePlan`
skips the row (stringified key `'undefined'` or `'null'`). -/
def contribKey (plan : Plan) (row : Row) : Option Str :=
  let groupKey := jsToString (objGet row (keyOf plan.groupByColumn))
  if groupKey = str "undefined" || groupKey = str "null" then none
  else some groupKey

/-- How many rows of the dataset contribute to group `k`. -/
def contribCount (data : List Row) (plan : Plan) (k : Str) : Nat :=
  data.countP (fun row => contribKey plan row = some k)

/-- Ordered-map lookup in the grouping accumulator. -/
def lookupG (gs : List (Str × List ℚ)) (k : Str) : Option (List ℚ) :=
  (gs.find? (fun p => p.1 = k)).map Prod.snd

/-! ## Concrete example values used by counterexamples and witnesses -/

/-- A one-row dataset whose only column holds `'50%'`. -/
def exPercentData : List Row := [[(str "p", Cell.str (str "50%"))]]

/-- A one-row dataset whose only column holds the empty string. -/
def exEmptyColData : List Row := [[(str "a", Cell.str [])]]

/-- One row with group key `'A'` and a non-numeric value cell. -/
def exCountData : List Row := [[(str "g", Cell.str (str "A")), (str "v", Cell.str (str "x"))]]

/-- A `count` plan that also names a value column. -/
def exCountPlanVC : Plan :=
  { chartType := some (str "bar"), title := some (str "t"),
    aggregation := some (str "count"), groupByColumn := some (str "g"),
    valueColumn := some (str "v") }

/-- The same `count` plan without a value column. -/
def exCountPlan : Plan :=
  { chartType := some (str "bar"), title := some (str "t"),
    aggregation := some (str "count"), groupByColumn := some (str "g") }

/-- Three rows for the top-N witness. -/
def exTopNData : List Row :=
  [[(str "g", Cell.str (str "a")), (str "v", Cell.num 1)],
   [(str "g", Cell.str (str "b")), (str "v", Cell.num 5)],
   [(str "g", Cell.str (str "c")), (str "v", Cell.num 3)]]

/-- A `dom_action` referring to a card id absent from the context. -/
def exBadDomAction : AiAction :=
  { responseType := str "dom_action", thought := str "inspect the chart",
    domAction := some { toolName := str "highlightCard",
                        args := some { cardId := str "card-99" } } }

/-- A well-formed `text_response` action. -/
def exTextAction : AiAction :=
  { responseType := str "text_response", thought := str "answer the user",
    text := str "Done." }

/-- Stage-A candidate plans for the pipeline examples. -/
def exPlanA : Plan :=
  { chartType := some (str "bar"), title := some (str "A"),
    aggregation := some (str "count"), groupByColumn := some (str "g") }

/-- A valid plan titled `B`. -/
def exPlanB : Plan := { exPlanA with title := some (str "B") }

/-- A valid plan titled `C`. -/
def exPlanC : Plan := { exPlanA with title := some (str "C") }

/-- A valid plan titled `D`. -/
def exPlanD : Plan := { exPlanA with title := some (str "D") }

/-- A one-row sample on which the example plans aggregate to one group. -/
def exSampleRows : List Row := [[(str "g", Cell.str (str "x"))]]

/-- A 21-row dataset (strictly larger than the 20-row dry-run sample). -/
def exData21 : List Row := List.replicate 21 [(str "r", Cell.str (str "1"))]

/-- A transform that returns its input unchanged (an array of objects). -/
def exIdTransform : Transform := fun d => JsOut.arrObjs d

/-- A model that always proposes `exIdTransform` as the preparation step. -/
def exPrepModel : PrepModel := fun _ => some ⟨some exIdTransform⟩

/-- A plan-objects array whose title contains a markdown fence. -/
def exPlansBad : List Jv :=
  [Jv.obj [(str "chartType", Jv.str (str "bar")),
           (str "title", Jv.str (str "a```b"))]]

/-- A well-behaved plan-objects array (no backticks anywhere). -/
def exPlansGood : List Jv :=
  [Jv.obj [(str "chartType", Jv.str (str "bar")),
           (str "title", Jv.str (str "Sales by region")),
           (str "defaultTopN", Jv.int 8),
           (str "defaultHideOthers", Jv.bool true)]]

/-- A store state with one card, used by the frame-effect witness. -/
def exChatState : ChatState :=
  { analysisCards := [{ id := str "card-1" }], progressMessages := [] }

/-- A `highlightCard` action aimed at a nonexistent card. -/
def exMissingDomAction : DomAction :=
  { toolName := str "highlightCard", args := some { cardId := str "zz" } }

/-! # Theorems -/

/-! ## General helper lemmas -/

theorem countP_replicate {α : Type} (p : α → Bool) (n : Nat) (a : α) :
    (List.replicate n a).countP p = if p a then n else 0 := by
  induction n with
  | zero => simp
  | succ m ih =>
    rw [List.replicate_succ, List.countP_cons, ih]
    by_cases h : p a <;> simp [h]

theorem dedup_replicate {α : Type} [DecidableEq α] (n : Nat) (a : α) :
    (List.replicate n a).dedup = if n = 0 then [] else [a] := by
  induction n with
  | zero => simp
  | succ m ih =>
    rw [List.replicate_succ]
    by_cases h : m = 0
    · subst h; simp
    · rw [List.dedup_cons_of_mem (by simp [List.mem_replicate, h]), ih, if_neg h]
      simp

theorem findIdx?_eq_none_of_forall {α : Type} (p : α → Bool) :
    ∀ (l : List α) (i : Nat), (∀ x ∈ l, p x = false) → l.findIdx? p i = none := by
  intro l
  induction l with
  | nil => intro i _; rfl
  | cons x xs ih =>
    intro i h
    rw [List.findIdx?_cons, h x (by simp)]
    simp only [Bool.false_eq_true, if_false]
    exact ih (i + 1) (fun y hy => h y (by simp [hy]))

theorem mem_of_getElem?_eq_some {α : Type} {l : List α} {i : Nat} {a : α}
    (h : l[i]? = some a) : a ∈ l := by
  obtain ⟨hlt, hg⟩ := List.getElem?_eq_some.mp h
  exact hg ▸ List.getElem_mem hlt

/-! ## Claim C4 -/

/-- Claim C4 (code bug): the spec — and the comment right above
`parseNumericValue` in src/utils/dataProcessor.ts ("remove common currency
symbols, commas, and trailing %") — requires percent signs to be stripped, so
a column all of whose cells are `'50%'` would be numerical.  The regex
`/[$€,]/g` never removes `%`, `Number('50%')` is NaN, and `profileData`
classifies the column as categorical instead. -/
theorem profileData_percent_column_categorical :
    parseNumericValue (some (Cell.str (str "50%"))) = none ∧
    (profileData exPercentData).map (fun p => (p.name, p.ctype, p.uniqueValues)) =
      [(str "p", CType.categorical, some 1)] := by
  constructor
  · decide
  · decide

/-! ## Claim C9 -/

/-- Claim C9 counterexample: on a non-empty dataset whose single column is
entirely empty, `profileData` reports `uniqueValues = 1` (the set of
stringified values is the singleton containing the empty string), not `0` as
the claim states. -/
theorem profileData_empty_column_unique_not_zero :
    (profileData exEmptyColData).map (fun p => p.uniqueValues) = [some 1] ∧
    ¬ ∃ p ∈ profileData exEmptyColData, p.uniqueValues = some 0 := by
  constructor
  · decide
  · intro ⟨p, hp, hu⟩
    have : p.uniqueValues = some 1 := by
      have hmap : (profileData exEmptyColData).map (fun q => q.uniqueValues) = [some 1] := by
        decide
      have := List.mem_map_of_mem (fun q => q.uniqueValues) hp
      rw [hmap] at this
      simpa using this
    rw [this] at hu
    simp at hu

/-- Evaluation of `profileColumn` on a column whose every cell is the empty
string: the numeric branch is ruled out (`numericCount = 0`), the stringified
value set is the singleton of the empty string, and every cell counts as
missing. -/
theorem profileColumn_replicate_empty (h : Str) (n : Nat) (hn : 0 < n) :
    profileColumn h (List.replicate n (some (Cell.str []))) n =
      { name := h, ctype := .categorical, uniqueValues := some 1,
        valueRange := none, missingPercentage := 100 } := by
  have h1 : profNonEmpty (some (Cell.str [])) = false := by decide
  have h2 : jsToString (some (Cell.str [])) = ([] : Str) := by decide
  have h3 : ((jsTrim (jsToString (some (Cell.str [])))).isEmpty : Bool) = true := by decide
  unfold profileColumn
  rw [countP_replicate, h1]
  simp only [if_false, Bool.false_eq_true]
  rw [if_neg (by simp)]
  have hu : ((List.replicate n (some (Cell.str []))).map jsToString).dedup.length = 1 := by
    rw [List.map_replicate, h2, dedup_replicate, if_neg (by omega)]
    rfl
  have hm : ((List.replicate n (some (Cell.str []))).countP
      (fun v => (jsTrim (jsToString v)).isEmpty) : ℚ) / (n : ℚ) * 100 = 100 := by
    rw [countP_replicate, h3]
    simp only [if_true]
    have hq : (n : ℚ) ≠ 0 := by exact_mod_cast Nat.pos_iff_ne_zero.mp hn
    field_simp
  rw [hu, hm]

/-- Claim C9 as amended: for every non-empty dataset, a column all of whose
cells are the empty string is profiled as categorical with
`missingPercentage = 100` and `uniqueValues = 1` (the empty string itself is
one distinct stringified value; the claimed value `0` never occurs). -/
theorem profileData_empty_column_categorical (data : List Row) (r0 : Row)
    (rest : List Row) (h : Str) (hdata : data = r0 :: rest)
    (hkey : h ∈ r0.map Prod.fst)
    (hempty : ∀ row ∈ data, objGet row h = some (Cell.str [])) :
    ∃ p ∈ profileData data, p.name = h ∧ p.ctype = .categorical ∧
      p.uniqueValues = some 1 ∧ p.missingPercentage = 100 := by
  subst hdata
  refine ⟨profileColumn h ((r0 :: rest).map (fun row => objGet row h))
    (r0 :: rest).length, List.mem_map_of_mem _ hkey, ?_⟩
  have hval : (r0 :: rest).map (fun row => objGet row h) =
      List.replicate (r0 :: rest).length (some (Cell.str [])) := by
    apply List.eq_replicate_iff.mpr
    refine ⟨by simp, ?_⟩
    intro b hb
    obtain ⟨row, hrow, hb'⟩ := List.mem_map.mp hb
    rw [← hb']; exact hempty row hrow
  rw [hval, profileColumn_replicate_empty h _ (by simp)]
  exact ⟨rfl, rfl, rfl, rfl⟩

/-- Claim C9 witness: the amended theorem applied to the concrete
single-row, single-column dataset whose one cell is empty. -/
theorem profileData_empty_column_categorical_witness :
    ∃ p ∈ profileData exEmptyColData, p.name = str "a" ∧ p.ctype = .categorical ∧
      p.uniqueValues = some 1 ∧ p.missingPercentage = 100 :=
  profileData_empty_column_categorical exEmptyColData
    [(str "a", Cell.str [])] [] (str "a") rfl (by decide) (by decide)

/-! ## Claim C10 -/

/-- Claim C10 counterexample: calling `executeDomAction` with an unknown
`cardId` does not leave the state unchanged — `addProgress` has already
appended a progress message before the card lookup fails. -/
theorem executeDomAction_missing_card_changes_state :
    executeDomAction { analysisCards := [], progressMessages := [] }
        exMissingDomAction ≠
      { analysisCards := [], progressMessages := [] } := by
  decide

/-- Claim C10 as amended: calling `executeDomAction` with an
`args.cardId` that matches no existing analysis card leaves the card list
(and every other field except the progress log) unchanged and does not
throw, for every tool name; the only effect is the single appended progress
message. -/
theorem executeDomAction_missing_card_frame (s : ChatState) (action : DomAction)
    (hmiss : ∀ c ∈ s.analysisCards, c.id ≠ (action.args.getD {}).cardId) :
    executeDomAction s action =
      { s with progressMessages := s.progressMessages ++ [domActionProgress action] } := by
  unfold executeDomAction
  have hnone : (List.findIdx? (fun c => c.id = (action.args.getD {}).cardId)
      s.analysisCards 0) = none := by
    apply findIdx?_eq_none_of_forall
    intro c hc
    simp [hmiss c hc]
  simp only [hnone]

/-- Claim C10 witness: the amended theorem applied to a state holding one
card `card-1` and a `highlightCard` action aimed at the unknown id `zz`. -/
theorem executeDomAction_missing_card_frame_witness :
    executeDomAction exChatState exMissingDomAction =
      { exChatState with progressMessages :=
          exChatState.progressMessages ++ [domActionProgress exMissingDomAction] } :=
  executeDomAction_missing_card_frame exChatState exMissingDomAction (by decide)

/-! ## Claim C1 -/

/-- Claim C1: in a chat turn, if any action of the model's batch fails
`validateAction`, then no action of that batch is executed — the batch gate
collects every validation result before the execution loop and executes
nothing when any error is present. -/
theorem chat_batch_all_or_nothing (actions : List AiAction) (cardIds : List Str)
    (a : AiAction) (ha : a ∈ actions)
    (hv : (validateAction a cardIds).isValid = false) :
    executedActions actions cardIds = [] := by
  unfold executedActions
  have hmem : validateAction a cardIds ∈
      (actions.map (fun x => validateAction x cardIds)).filter (fun v => !v.isValid) := by
    apply List.mem_filter.mpr
    exact ⟨List.mem_map_of_mem _ ha, by simp [hv]⟩
  have hpos : 0 < (((actions.map (fun x => validateAction x cardIds)).filter
      (fun v => !v.isValid)).map (fun v => v.errors)).length := by
    rw [List.length_map]
    exact List.length_pos.mpr (List.ne_nil_of_mem hmem)
  simp only [gt_iff_lt, hpos, if_pos]

/-- Claim C1 witness: a two-action batch whose second action is a
`dom_action` naming an unknown card executes nothing. -/
theorem chat_batch_all_or_nothing_witness :
    executedActions [exTextAction, exBadDomAction] [str "card-1"] = [] :=
  chat_batch_all_or_nothing [exTextAction, exBadDomAction] [str "card-1"]
    exBadDomAction (by decide) (by decide)

/-! ## Claim C6 -/

theorem joinSep_mem_decomp (sep : Str) :
    ∀ (l : List Str) (e : Str), e ∈ l →
      ∃ p q : Str, joinSep sep l = p ++ (e ++ q) := by
  intro l
  induction l with
  | nil => intro e he; cases he
  | cons x xs ih =>
    intro e he
    cases xs with
    | nil =>
      rcases List.mem_singleton.mp he with rfl
      exact ⟨[], [], by simp [joinSep]⟩
    | cons y ys =>
      rcases List.mem_cons.mp he with rfl | hmem
      · exact ⟨[], sep ++ joinSep sep (y :: ys), by simp [joinSep]⟩
      · obtain ⟨p, q, hpq⟩ := ih e hmem
        exact ⟨x ++ sep ++ p, q, by simp [joinSep, hpq, List.append_assoc]⟩

/-- The `dom_action` helper flags an unknown `cardId`: its error list is
non-empty and one of its messages embeds the offending id verbatim (when the
id is empty, the "required" message embeds it trivially). -/
theorem validateDomAction_unknown_card (d : DomAction) (dargs : DomArgs)
    (cardIds : List Str) (hargs : d.args = some dargs)
    (hmem : dargs.cardId ∉ cardIds) :
    ∃ m ∈ validateDomAction (some d) cardIds,
      ∃ p q : Str, m = p ++ (dargs.cardId ++ q) := by
  have hcont : cardIds.contains dargs.cardId = false := by simpa using hmem
  unfold validateDomAction
  simp only [hargs, Option.getD_some, Option.isNone_some, Bool.false_or]
  by_cases hnil : dargs.cardId.isEmpty
  · refine ⟨str "\"domAction.args.cardId\" is required.", ?_, ?_⟩
    · simp [hnil]
    · have : dargs.cardId = [] := by simpa using hnil
      exact ⟨str "\"domAction.args.cardId\" is required.", [], by simp [this]⟩
  · refine ⟨str "\"domAction.args.cardId\" ('" ++ dargs.cardId ++
      str "') is invalid. It must be one of the existing card IDs: [" ++
      joinSep (str ", ") cardIds ++ str "].", ?_, ?_⟩
    · simp [hnil, hcont, hmem]
    · exact ⟨str "\"domAction.args.cardId\" ('",
        str "') is invalid. It must be one of the existing card IDs: [" ++
          joinSep (str ", ") cardIds ++ str "].", by simp [List.append_assoc]⟩

/-- Claim C6: `validateAction` rejects a `dom_action` whose `args.cardId` is
not among the context's card ids, and the returned error report contains the
offending id as a substring. -/
theorem validateAction_dom_unknown_card (a : AiAction) (cardIds : List Str)
    (d : DomAction) (dargs : DomArgs)
    (hrt : a.responseType = str "dom_action")
    (hd : a.domAction = some d) (hargs : d.args = some dargs)
    (hmem : dargs.cardId ∉ cardIds) :
    (validateAction a cardIds).isValid = false ∧
    ∃ p q : Str, (validateAction a cardIds).errors = p ++ (dargs.cardId ++ q) := by
  obtain ⟨m, hmmem, pm, qm, hm⟩ := validateDomAction_unknown_card d dargs cardIds hargs hmem
  unfold validateAction
  rw [hrt, hd]
  have hne1 : ¬ (str "dom_action" = str "plan_creation") := by decide
  rw [if_neg hne1, if_pos rfl]
  set tErr := (if a.thought.isEmpty then
    [str "The 'thought' field is mandatory for every action."] else []) with htErr
  have hrtempty : ((str "dom_action").isEmpty : Bool) = false := by decide
  rw [hrtempty]
  simp only [Bool.false_eq_true, if_false, List.append_nil]
  set allErrors := tErr ++ validateDomAction (some d) cardIds with hall
  have hmemAll : m ∈ allErrors := by
    rw [hall]; exact List.mem_append_right _ hmmem
  have hpos : 0 < allErrors.length := List.length_pos.mpr (List.ne_nil_of_mem hmemAll)
  rw [if_pos hpos]
  refine ⟨rfl, ?_⟩
  obtain ⟨pj, qj, hj⟩ := joinSep_mem_decomp (str "\n  - ") allErrors m hmemAll
  rw [hm] at hj
  refine ⟨str "- Action \"" ++
    (if truthyS (a.plan.bind (fun p => p.title)) then interpS (a.plan.bind (fun p => p.title))
     else if truthyS ((some d).map (fun d' => d'.toolName)) then
       interpS ((some d).map (fun d' => d'.toolName))
     else str "dom_action") ++ str "\" (thought: \"" ++
    (if a.thought.isEmpty then str "N/A" else a.thought) ++
    str "\") failed validation:\n  - " ++ pj ++ pm, qm ++ qj, ?_⟩
  simp only [hj, List.append_assoc]

/-- Claim C6 witness: the theorem applied to a concrete `highlightCard`
action naming `card-99` against a context holding `card-1` and `card-2`. -/
theorem validateAction_dom_unknown_card_witness :
    (validateAction exBadDomAction [str "card-1", str "card-2"]).isValid = false ∧
    ∃ p q : Str, (validateAction exBadDomAction [str "card-1", str "card-2"]).errors =
      p ++ (str "card-99" ++ q) :=
  validateAction_dom_unknown_card exBadDomAction [str "card-1", str "card-2"]
    { toolName := str "highlightCard", args := some { cardId := str "card-99" } }
    { cardId := str "card-99" } rfl rfl rfl (by decide)

/-! ## Claim C2 -/

/-- Every execution recorded by the data-preparation retry loop targets the
sample (never the full dataset). -/
theorem prepAttempts_events_size (model : PrepModel) (sample : List Row) :
    ∀ (n i : Nat), ∀ ev ∈ (prepAttempts model sample n i).2,
      ev.size = sample.length := by
  intro n
  induction n with
  | zero => intro i ev hev; cases hev
  | succ m ih =>
    intro i ev hev
    unfold prepAttempts at hev
    cases hmod : model i with
    | none => simp only [hmod] at hev; exact ih (i + 1) ev hev
    | some plan =>
      simp only [hmod] at hev
      cases hbody : plan.jsFunctionBody with
      | none => simp only [hbody] at hev; cases hev
      | some f =>
        simp only [hbody] at hev
        by_cases harr : jsOutIsArray (f sample)
        · rw [if_pos harr] at hev
          rcases List.mem_singleton.mp hev with rfl
          rfl
        · rw [if_neg harr] at hev
          rcases List.mem_cons.mp hev with rfl | h
          · rfl
          · exact ih (i + 1) ev h

/-- When the retry loop accepts a plan that carries a function body, its
trace contains a sample run whose result passed the `Array.isArray` check. -/
theorem prepAttempts_success_array (model : PrepModel) (sample : List Row) :
    ∀ (n i : Nat) (plan : PrepPlan) (f : Transform),
      (prepAttempts model sample n i).1 = some plan →
      plan.jsFunctionBody = some f →
      ∃ ev ∈ (prepAttempts model sample n i).2,
        ev.size = sample.length ∧ jsOutIsArray ev.out = true := by
  intro n
  induction n with
  | zero => intro i plan f hres; cases hres
  | succ m ih =>
    intro i plan f hres hbody
    unfold prepAttempts at hres ⊢
    cases hmod : model i with
    | none =>
      simp only [hmod] at hres ⊢
      exact ih (i + 1) plan f hres hbody
    | some plan' =>
      simp only [hmod] at hres ⊢
      cases hbody' : plan'.jsFunctionBody with
      | none =>
        simp only [hbody'] at hres ⊢
        obtain rfl : plan' = plan := by simpa using hres
        rw [hbody'] at hbody; cases hbody
      | some f' =>
        simp only [hbody'] at hres ⊢
        by_cases harr : jsOutIsArray (f' sample)
        · rw [if_pos harr] at hres ⊢
          exact ⟨⟨sample.length, f' sample⟩, by simp, rfl, harr⟩
        · rw [if_neg harr] at hres ⊢
          obtain ⟨ev, hev, hsz, hgood⟩ := ih (i + 1) plan f hres hbody
          exact ⟨ev, List.mem_cons_of_mem _ hev, hsz, hgood⟩

/-- Claim C2 counterexample: the chat-turn `execute_js_code` branch runs the
model-authored body exactly once, directly against the full (21-row) dataset;
no sample dry run — not even one returning an array of objects — precedes it,
so the claimed discipline fails on this path. -/
theorem chat_execute_js_no_dry_run :
    chatExecuteJsEvents exData21 exIdTransform =
      [⟨exData21.length, JsOut.arrObjs exData21⟩] ∧
    exData21.length = 21 ∧
    ¬ dryRunBefore exData21.length jsOutIsArrObjs
        (chatExecuteJsEvents exData21 exIdTransform) := by
  refine ⟨rfl, rfl, ?_⟩
  intro h
  obtain ⟨j, ev', hj, _, _, _⟩ :=
    h 0 ⟨exData21.length, JsOut.arrObjs exData21⟩ rfl rfl
  omega

/-- Claim C2 as amended: on the data-preparation path, the model-authored
body reaches the full dataset only after a dry run against the ≤20-row
sample has succeeded with `Array.isArray` (the code checks array-ness only,
not that the elements are objects); the chat-turn path has no such guard. -/
theorem handleFileUpload_dry_run_before_full (model : PrepModel)
    (data : List Row) (hbig : 20 < data.length) :
    dryRunBefore data.length jsOutIsArray
      (handleFileUploadExecEvents model data) := by
  have hsample : (data.take 20).length = 20 := by
    rw [List.length_take]; omega
  have hsmall : ∀ e ∈ (prepAttempts model (data.take 20) 3 0).2, e.size = 20 := by
    intro e he
    rw [← hsample]; exact prepAttempts_events_size model (data.take 20) 3 0 e he
  cases hres : (prepAttempts model (data.take 20) 3 0).1 with
  | none =>
    have htr : handleFileUploadExecEvents model data =
        (prepAttempts model (data.take 20) 3 0).2 := by
      unfold handleFileUploadExecEvents
      simp only [hres]
    rw [htr]
    intro i ev hev hsize
    have := hsmall ev (mem_of_getElem?_eq_some hev)
    omega
  | some plan =>
    cases hbody : plan.jsFunctionBody with
    | none =>
      have htr : handleFileUploadExecEvents model data =
          (prepAttempts model (data.take 20) 3 0).2 := by
        unfold handleFileUploadExecEvents
        simp only [hres, hbody]
      rw [htr]
      intro i ev hev hsize
      have := hsmall ev (mem_of_getElem?_eq_some hev)
      omega
    | some f =>
      have htr : handleFileUploadExecEvents model data =
          (prepAttempts model (data.take 20) 3 0).2 ++
            [⟨data.length, f data⟩] := by
        unfold handleFileUploadExecEvents
        simp only [hres, hbody]
      rw [htr]
      intro i ev hev hsize
      set evs := (prepAttempts model (data.take 20) 3 0).2 with hevs
      by_cases hlt : i < evs.length
      · have heq : (evs ++ [(⟨data.length, f data⟩ : ExecEvent)])[i]? = evs[i]? :=
          List.getElem?_append_left hlt
        rw [heq] at hev
        have := hsmall ev (mem_of_getElem?_eq_some hev)
        omega
      · obtain ⟨ev0, hev0, hsz0, hgood0⟩ :=
          prepAttempts_success_array model (data.take 20) 3 0 plan f hres hbody
        obtain ⟨j, hj, hjev⟩ := List.getElem_of_mem hev0
        rw [← hevs] at hj
        refine ⟨j, ev0, ?_, ?_, ?_, hgood0⟩
        · have hi : evs.length ≤ i := Nat.le_of_not_lt hlt
          omega
        · rw [List.getElem?_append_left hj, List.getElem?_eq_getElem hj]
          exact congrArg some hjev
        · omega

/-- Claim C2 witness: the amended theorem applied to a 21-row dataset and a
model that proposes an identity transform. -/
theorem handleFileUpload_dry_run_before_full_witness :
    20 < exData21.length ∧
    dryRunBefore exData21.length jsOutIsArray
      (handleFileUploadExecEvents exPrepModel exData21) :=
  ⟨by decide, handleFileUpload_dry_run_before_full exPrepModel exData21 (by decide)⟩

/-! ## Claim C5 -/

theorem foldl_add_eq_sum (f : Row → ℚ) :
    ∀ (l : List Row) (a : ℚ),
      l.foldl (fun acc row => acc + f row) a = a + (l.map f).sum := by
  intro l
  induction l with
  | nil => intro a; simp
  | cons x xs ih =>
    intro a
    simp only [List.foldl_cons, List.map_cons, List.sum_cons, ih]
    ring

theorem objGet_objSet_pair (g v : Str) (c1 c2 : Cell) :
    objGet (objSet (objSet [] g c1) v c2) v = some c2 := by
  by_cases h : g = v
  · subst h
    simp [objSet, objGet]
  · simp [objSet, objGet, h, Ne.symm h]

/-- Claim C5: `applyTopNWithOthers` returns its input unchanged (hence is
idempotent) when the data has at most `topN` rows; otherwise it returns the
first `topN − 1` rows of a stable descending sort by value, followed by a
synthetic `Others` row whose value is exactly the sum of the values of the
remaining (`topN`-th-ranked and lower) rows; the total value is preserved. -/
theorem applyTopNWithOthers_spec (data : List Row) (g v : Str) (N : Int)
    (hN : 1 ≤ N) :
    (((data.length : Int) ≤ N →
        applyTopNWithOthers data g v N = data ∧
        applyTopNWithOthers (applyTopNWithOthers data g v N) g v N =
          applyTopNWithOthers data g v N)) ∧
    (N < (data.length : Int) →
      ∃ (sorted : List Row) (othersRow : Row),
        sorted.Perm data ∧
        sorted.Pairwise (fun a b => numOr0 (objGet b v) ≤ numOr0 (objGet a v)) ∧
        applyTopNWithOthers data g v N =
          sorted.take (N - 1).toNat ++ [othersRow] ∧
        numOr0 (objGet othersRow v) =
          ((sorted.drop (N - 1).toNat).map (fun row => numOr0 (objGet row v))).sum ∧
        ((applyTopNWithOthers data g v N).map (fun row => numOr0 (objGet row v))).sum =
          (data.map (fun row => numOr0 (objGet row v))).sum) := by
  constructor
  · intro hle
    have h1 : applyTopNWithOthers data g v N = data := by
      unfold applyTopNWithOthers
      rw [if_pos hle]
    exact ⟨h1, by rw [h1, h1]⟩
  · intro hgt
    have hnot : ¬ ((data.length : Int) ≤ N) := by omega
    set f : Row → ℚ := fun row => numOr0 (objGet row v) with hf
    set sorted := data.insertionSort
      (fun a b => numOr0 (objGet b v) ≤ numOr0 (objGet a v)) with hsorted
    have hperm : sorted.Perm data := List.perm_insertionSort _ data
    have hlen : sorted.length = data.length := hperm.length_eq
    have hNneg : ¬ (N - 1 < 0) := by omega
    have htn : ((N - 1).toNat : Int) = N - 1 := Int.toNat_of_nonneg (by omega)
    have htake : jsSliceTake sorted (N - 1) = sorted.take (N - 1).toNat := by
      unfold jsSliceTake; rw [if_neg hNneg]
    have hdrop : jsSliceFrom sorted (N - 1) = sorted.drop (N - 1).toNat := by
      unfold jsSliceFrom; rw [if_neg hNneg]
    have hrest : 0 < (sorted.drop (N - 1).toNat).length := by
      rw [List.length_drop, hlen]
      omega
    set S := (sorted.drop (N - 1).toNat).foldl
      (fun acc row => acc + numOr0 (objGet row v)) 0 with hS
    set othersRow := objSet (objSet [] g (.str (str "Others"))) v (.num S)
      with hothers
    have hresult : applyTopNWithOthers data g v N =
        sorted.take (N - 1).toNat ++ [othersRow] := by
      unfold applyTopNWithOthers
      rw [if_neg hnot]
      simp only [← hsorted, htake, hdrop, if_pos hrest, ← hS, ← hothers]
    have hSsum : S = ((sorted.drop (N - 1).toNat).map f).sum := by
      rw [hS, foldl_add_eq_sum f, zero_add]
    refine ⟨sorted, othersRow, hperm, ?_, hresult, ?_, ?_⟩
    · haveI : IsTotal Row (fun a b => numOr0 (objGet b v) ≤ numOr0 (objGet a v)) :=
        ⟨fun a b => le_total (numOr0 (objGet b v)) (numOr0 (objGet a v))⟩
      haveI : IsTrans Row (fun a b => numOr0 (objGet b v) ≤ numOr0 (objGet a v)) :=
        ⟨fun _ _ _ hab hbc => le_trans hbc hab⟩
      exact List.sorted_insertionSort _ data
    · rw [hothers, objGet_objSet_pair]
      simpa using hSsum
    · rw [hresult]
      have hsplit : (sorted.map f).sum = (data.map f).sum :=
        (hperm.map f).sum_eq
      have : sorted.take (N - 1).toNat ++ sorted.drop (N - 1).toNat = sorted :=
        List.take_append_drop _ _
      calc ((sorted.take (N - 1).toNat ++ [othersRow]).map f).sum
          = ((sorted.take (N - 1).toNat).map f).sum + f othersRow := by
            simp
        _ = ((sorted.take (N - 1).toNat).map f).sum +
              ((sorted.drop (N - 1).toNat).map f).sum := by
            have hof : f othersRow = S := by
              rw [hothers, hf]
              simp only [objGet_objSet_pair]
              rfl
            rw [hof, hSsum]
        _ = (sorted.map f).sum := by
            rw [← this]
            simp
        _ = (data.map f).sum := hsplit
      
/-- Claim C5 witness: the theorem applied with `N = 2` to three rows of
values 1, 5, 3 (so the branch with the synthetic `Others` row fires). -/
theorem applyTopNWithOthers_spec_witness :
    (1 : Int) ≤ 2 ∧ ((2 : Int) < (exTopNData.length : Int)) ∧
    (((exTopNData.length : Int) ≤ 2 →
        applyTopNWithOthers exTopNData (str "g") (str "v") 2 = exTopNData ∧
        applyTopNWithOthers (applyTopNWithOthers exTopNData (str "g") (str "v") 2)
          (str "g") (str "v") 2 =
          applyTopNWithOthers exTopNData (str "g") (str "v") 2)) ∧
    ((2 : Int) < (exTopNData.length : Int) →
      ∃ (sorted : List Row) (othersRow : Row),
        sorted.Perm exTopNData ∧
        sorted.Pairwise (fun a b =>
          numOr0 (objGet b (str "v")) ≤ numOr0 (objGet a (str "v"))) ∧
        applyTopNWithOthers exTopNData (str "g") (str "v") 2 =
          sorted.take ((2 : Int) - 1).toNat ++ [othersRow] ∧
        numOr0 (objGet othersRow (str "v")) =
          ((sorted.drop ((2 : Int) - 1).toNat).map
            (fun row => numOr0 (objGet row (str "v")))).sum ∧
        ((applyTopNWithOthers exTopNData (str "g") (str "v") 2).map
            (fun row => numOr0 (objGet row (str "v")))).sum =
          (exTopNData.map (fun row => numOr0 (objGet row (str "v")))).sum) :=
  ⟨by decide, by decide, applyTopNWithOthers_spec exTopNData (str "g") (str "v") 2 (by decide)⟩

/-! ## Claim C3 -/

/-- Under `aggregation = 'count'` with no truthy value column, one grouping
step either skips the row or appends a unit `1` to the (possibly freshly
created) bucket of its group key. -/
theorem groupStep_count (plan : Plan)
    (hagg : plan.aggregation = some (str "count"))
    (hval : truthyS plan.valueColumn = false)
    (gs : List (Str × List ℚ)) (row : Row) :
    groupStep plan gs row =
      match contribKey plan row with
      | none => gs
      | some k =>
        pushVal (if gs.any (fun p => p.1 = k) then gs else gs ++ [(k, [])]) k 1 := by
  unfold groupStep contribKey
  by_cases hskip : (jsToString (objGet row (keyOf plan.groupByColumn)) = str "undefined" ||
      jsToString (objGet row (keyOf plan.groupByColumn)) = str "null") = true
  · simp only [hskip, if_true]
  · simp only [Bool.not_eq_true] at hskip
    simp only [hskip, Bool.false_eq_true, if_false, hval, hagg, if_pos rfl]
    simp

theorem contribCount_cons (plan : Plan) (row : Row) (data : List Row) (k : Str) :
    contribCount (row :: data) plan k =
      contribCount data plan k + (if contribKey plan row = some k then 1 else 0) := by
  simp [contribCount, List.countP_cons]

theorem lookupG_ensure (gs : List (Str × List ℚ)) (k : Str) :
    lookupG (if gs.any (fun p => p.1 = k) then gs else gs ++ [(k, [])]) k =
      some ((lookupG gs k).getD []) := by
  by_cases h : gs.any (fun p => p.1 = k) = true
  · rw [if_pos h]
    obtain ⟨x, hx, hpx⟩ := List.any_eq_true.mp h
    have : (gs.find? (fun p => p.1 = k)).isSome := by
      rw [List.find?_isSome]
      exact ⟨x, hx, hpx⟩
    obtain ⟨e, he⟩ := Option.isSome_iff_exists.mp this
    simp [lookupG, he]
  · rw [if_neg h]
    have hnone : gs.find? (fun p => p.1 = k) = none := by
      rw [List.find?_eq_none]
      intro x hx
      by_contra hc
      exact h (List.any_eq_true.mpr ⟨x, hx, by simpa using hc⟩)
    simp [lookupG, List.find?_append, hnone]

theorem lookupG_ensure_ne (gs : List (Str × List ℚ)) (k k' : Str) (h : k' ≠ k) :
    lookupG (if gs.any (fun p => p.1 = k) then gs else gs ++ [(k, [])]) k' =
      lookupG gs k' := by
  by_cases hany : gs.any (fun p => p.1 = k) = true
  · rw [if_pos hany]
  · rw [if_neg hany]
    simp [lookupG, List.find?_append, Ne.symm h]

theorem pushVal_key_pred (k : Str) (x : ℚ) (k' : Str) :
    (fun p : Str × List ℚ =>
        decide (((fun q : Str × List ℚ =>
          if q.1 = k then (q.1, q.2 ++ [x]) else q) p).1 = k')) =
      (fun p : Str × List ℚ => decide (p.1 = k')) := by
  funext p
  by_cases h : p.1 = k <;> simp [h]

theorem lookupG_pushVal (gs : List (Str × List ℚ)) (k : Str) (x : ℚ) :
    lookupG (pushVal gs k x) k = (lookupG gs k).map (fun vs => vs ++ [x]) := by
  unfold lookupG pushVal
  rw [List.find?_map]
  cases hf : gs.find? (fun p => p.1 = k) with
  | none =>
    have : gs.find? ((fun p : Str × List ℚ => decide (p.1 = k)) ∘
        (fun q : Str × List ℚ => if q.1 = k then (q.1, q.2 ++ [x]) else q)) = none := by
      rw [show ((fun p : Str × List ℚ => decide (p.1 = k)) ∘
        (fun q : Str × List ℚ => if q.1 = k then (q.1, q.2 ++ [x]) else q)) =
        (fun p : Str × List ℚ => decide (p.1 = k)) from pushVal_key_pred k x k, hf]
    simp [this]
  | some e =>
    have he := List.find?_some hf
    have hek : e.1 = k := by simpa using he
    have : gs.find? ((fun p : Str × List ℚ => decide (p.1 = k)) ∘
        (fun q : Str × List ℚ => if q.1 = k then (q.1, q.2 ++ [x]) else q)) = some e := by
      rw [show ((fun p : Str × List ℚ => decide (p.1 = k)) ∘
        (fun q : Str × List ℚ => if q.1 = k then (q.1, q.2 ++ [x]) else q)) =
        (fun p : Str × List ℚ => decide (p.1 = k)) from pushVal_key_pred k x k, hf]
    simp [this, hek]

theorem lookupG_pushVal_ne (gs : List (Str × List ℚ)) (k : Str) (x : ℚ)
    (k' : Str) (h : k' ≠ k) :
    lookupG (pushVal gs k x) k' = lookupG gs k' := by
  unfold lookupG pushVal
  rw [List.find?_map]
  cases hf : gs.find? (fun p => p.1 = k') with
  | none =>
    have : gs.find? ((fun p : Str × List ℚ => decide (p.1 = k')) ∘
        (fun q : Str × List ℚ => if q.1 = k then (q.1, q.2 ++ [x]) else q)) = none := by
      rw [show ((fun p : Str × List ℚ => decide (p.1 = k')) ∘
        (fun q : Str × List ℚ => if q.1 = k then (q.1, q.2 ++ [x]) else q)) =
        (fun p : Str × List ℚ => decide (p.1 = k')) from pushVal_key_pred k x k', hf]
    simp [this]
  | some e =>
    have he := List.find?_some hf
    have hek : e.1 = k' := by simpa using he
    have : gs.find? ((fun p : Str × List ℚ => decide (p.1 = k')) ∘
        (fun q : Str × List ℚ => if q.1 = k then (q.1, q.2 ++ [x]) else q)) = some e := by
      rw [show ((fun p : Str × List ℚ => decide (p.1 = k')) ∘
        (fun q : Str × List ℚ => if q.1 = k then (q.1, q.2 ++ [x]) else q)) =
        (fun p : Str × List ℚ => decide (p.1 = k')) from pushVal_key_pred k x k', hf]
    have hek2 : ¬ (e.1 = k) := by rw [hek]; exact h
    simp [this, hek2]

/-- The grouping pass for a `count` plan with no value column: after folding
the whole dataset, the bucket of key `k` extends whatever was already
accumulated by one unit `1` per contributing row, and exists exactly when
some row contributes (or it existed before). -/
theorem buildGroups_count_lookup (plan : Plan)
    (hagg : plan.aggregation = some (str "count"))
    (hval : truthyS plan.valueColumn = false) :
    ∀ (data : List Row) (gs : List (Str × List ℚ)) (k : Str),
      lookupG (data.foldl (groupStep plan) gs) k =
        (match lookupG gs k with
         | some vs => some (vs ++ List.replicate (contribCount data plan k) 1)
         | none =>
           if 0 < contribCount data plan k then
             some (List.replicate (contribCount data plan k) 1)
           else none) := by
  intro data
  induction data with
  | nil =>
    intro gs k
    simp only [List.foldl_nil]
    cases h : lookupG gs k <;> simp [contribCount]
  | cons row data' ih =>
    intro gs k
    rw [List.foldl_cons, groupStep_count plan hagg hval gs row, contribCount_cons]
    cases hck : contribKey plan row with
    | none =>
      rw [ih gs k]
      cases hg : lookupG gs k <;> simp
    | some k0 =>
      by_cases hk : k0 = k
      · subst hk
        rw [ih _ k0, lookupG_pushVal, lookupG_ensure]
        rw [if_pos rfl]
        cases hg : lookupG gs k0 with
        | none =>
          simp only [Option.getD_none, List.nil_append]
          have hpos : 0 < contribCount data' plan k0 + 1 := by omega
          rw [if_pos hpos]
          have hrep : (1 : ℚ) :: List.replicate (contribCount data' plan k0) 1 =
              List.replicate (contribCount data' plan k0 + 1) 1 :=
            (List.replicate_succ 1 (contribCount data' plan k0)).symm
          simp [hrep]
        | some vs =>
          simp only [Option.getD_some]
          have hrep : (1 : ℚ) :: List.replicate (contribCount data' plan k0) 1 =
              List.replicate (contribCount data' plan k0 + 1) 1 :=
            (List.replicate_succ 1 (contribCount data' plan k0)).symm
          simp [List.append_assoc, hrep]
      · have hne : ¬ ((some k0 : Option Str) = some k) := by simpa using hk
        rw [ih _ k, lookupG_pushVal_ne _ _ _ _ (Ne.symm hk),
          lookupG_ensure_ne _ _ _ (Ne.symm hk)]
        rw [if_neg hne, add_zero]

theorem pushVal_map_fst (gs : List (Str × List ℚ)) (k : Str) (x : ℚ) :
    (pushVal gs k x).map Prod.fst = gs.map Prod.fst := by
  unfold pushVal
  rw [List.map_map]
  have hc : (Prod.fst ∘ fun p : Str × List ℚ =>
      if p.1 = k then (p.1, p.2 ++ [x]) else p) = Prod.fst := by
    funext p
    by_cases h : p.1 = k <;> simp [h]
  rw [hc]

theorem groupStep_map_fst_nodup (plan : Plan) (gs : List (Str × List ℚ))
    (row : Row) (h : (gs.map Prod.fst).Nodup) :
    ((groupStep plan gs row).map Prod.fst).Nodup := by
  unfold groupStep
  by_cases hskip : (jsToString (objGet row (keyOf plan.groupByColumn)) = str "undefined" ||
      jsToString (objGet row (keyOf plan.groupByColumn)) = str "null") = true
  · simpa [hskip] using h
  · simp only [Bool.not_eq_true] at hskip
    simp only [hskip, Bool.false_eq_true, if_false]
    set gk := jsToString (objGet row (keyOf plan.groupByColumn)) with hgk
    have h1 : (((if gs.any (fun p => p.1 = gk) then gs else gs ++ [(gk, [])])).map
        Prod.fst).Nodup := by
      by_cases hany : gs.any (fun p => p.1 = gk) = true
      · simpa [hany] using h
      · rw [if_neg hany]
        rw [List.map_append]
        have hnm : gk ∉ gs.map Prod.fst := by
          intro hmem
          obtain ⟨p, hp, hp2⟩ := List.mem_map.mp hmem
          exact hany (List.any_eq_true.mpr ⟨p, hp, by simp [hp2]⟩)
        simp [List.nodup_append, h, hnm]
    by_cases hvc : truthyS plan.valueColumn = true
    · simp only [hvc, if_true]
      cases hp : parseNumericValue (objGet row (keyOf plan.valueColumn)) with
      | none => exact h1
      | some x => rw [pushVal_map_fst]; exact h1
    · simp only [Bool.not_eq_true] at hvc
      simp only [hvc, Bool.false_eq_true, if_false]
      by_cases hcnt : plan.aggregation = some (str "count")
      · rw [if_pos hcnt, pushVal_map_fst]; exact h1
      · rw [if_neg hcnt]; exact h1

theorem buildGroups_keys_nodup (plan : Plan) :
    ∀ (data : List Row) (gs : List (Str × List ℚ)),
      (gs.map Prod.fst).Nodup →
      ((data.foldl (groupStep plan) gs).map Prod.fst).Nodup := by
  intro data
  induction data with
  | nil => intro gs h; simpa using h
  | cons row data' ih =>
    intro gs h
    rw [List.foldl_cons]
    exact ih _ (groupStep_map_fst_nodup plan gs row h)

theorem mem_of_lookupG (gs : List (Str × List ℚ)) (k : Str) (vs : List ℚ)
    (h : lookupG gs k = some vs) : (k, vs) ∈ gs := by
  unfold lookupG at h
  cases hf : gs.find? (fun p => p.1 = k) with
  | none => rw [hf] at h; cases h
  | some e =>
    rw [hf] at h
    have he1 : e.1 = k := by simpa using List.find?_some hf
    have he2 : e.2 = vs := by simpa using h
    have : e = (k, vs) := by
      cases e; simp_all
    rw [← this]
    exact List.mem_of_find?_eq_some hf

theorem lookupG_of_mem_nodup :
    ∀ (gs : List (Str × List ℚ)), (gs.map Prod.fst).Nodup →
      ∀ (k : Str) (vs : List ℚ), (k, vs) ∈ gs → lookupG gs k = some vs := by
  intro gs
  induction gs with
  | nil => intro _ k vs h; cases h
  | cons e gs' ih =>
    intro hnd k vs hmem
    rw [List.map_cons, List.nodup_cons] at hnd
    rcases List.mem_cons.mp hmem with rfl | htail
    · simp [lookupG, List.find?_cons_of_pos]
    · have hk : k ∈ gs'.map Prod.fst := List.mem_map.mpr ⟨(k, vs), htail, rfl⟩
      have hne : ¬ (e.1 = k) := by
        intro hc; exact hnd.1 (hc ▸ hk)
      unfold lookupG
      rw [List.find?_cons_of_neg _ (by simpa using hne)]
      exact ih hnd.2 k vs htail

theorem traverseOption_eq_map {α β : Type} (g : α → Option β) (f : α → β)
    (hg : ∀ a, g a = some (f a)) :
    ∀ l : List α, traverseOption g l = some (l.map f) := by
  intro l
  induction l with
  | nil => rfl
  | cons x xs ih => simp [traverseOption, hg x, ih]

theorem objGet_objSet_pair_fst (g v : Str) (c1 c2 : Cell) (h : ¬ (g = v)) :
    objGet (objSet (objSet [] g c1) v c2) g = some c1 := by
  simp [objSet, objGet, h, Ne.symm h]

/-- `executePlan` for a `count`/no-value-column plan: one result row per
group, carrying the stringified key under the group-by column and the bucket
length under `count`, sorted by value. -/
theorem executePlan_count_eval (data : List Row) (plan : Plan)
    (hagg : plan.aggregation = some (str "count"))
    (hval : truthyS plan.valueColumn = false) :
    executePlan data plan = some (sortByValueDesc (str "count")
      ((buildGroups data plan).map (fun p =>
        objSet (objSet [] (keyOf plan.groupByColumn) (.str p.1)) (str "count")
          (.num (p.2.length : ℚ))))) := by
  unfold executePlan
  have hcol : (if truthyS plan.valueColumn then keyOf plan.valueColumn
      else str "count") = str "count" := by rw [hval]; simp
  rw [hcol]
  rw [traverseOption_eq_map _ (fun p : Str × List ℚ =>
    objSet (objSet [] (keyOf plan.groupByColumn) (.str p.1)) (str "count")
      (.num (p.2.length : ℚ))) (fun p => by
        unfold aggValue
        rw [hagg]
        rw [if_neg (by decide), if_pos rfl]
        rfl)]
  rfl

/-- Claim C3 counterexample: with `aggregation = 'count'` and a value column
present, `executePlan` counts only the rows whose value cell parses
numerically.  On one row whose value cell is the non-numeric `'x'`, the
result row's value is `0` although one row contributes to the group, and
dropping the value column changes the result — so the result both differs
from the contributing-row count and depends on `valueColumn`. -/
theorem executePlan_count_consults_valueColumn :
    executePlan exCountData exCountPlanVC =
      some [[(str "g", Cell.str (str "A")), (str "v", Cell.num 0)]] ∧
    contribCount exCountData exCountPlanVC (str "A") = 1 ∧
    executePlan exCountData exCountPlanVC ≠ executePlan exCountData exCountPlan := by
  have h2 : executePlan exCountData exCountPlanVC =
      some [[(str "g", Cell.str (str "A")), (str "v", Cell.num 0)]] := rfl
  have h4 : executePlan exCountData exCountPlan =
      some [[(str "g", Cell.str (str "A")), (str "count", Cell.num 1)]] := rfl
  refine ⟨h2, by decide, ?_⟩
  rw [h2, h4]
  intro hc
  have h6 := Option.some.inj hc
  simp at h6

/-- Claim C3 as amended: for a plan with `aggregation = 'count'` and no
(truthy) `valueColumn`, `executePlan` succeeds, and each result row's value
under the `count` column equals the number of input rows contributing to its
group (rows whose stringified group key is neither `'undefined'` nor
`'null'`); conversely every contributing group is represented.  (When a
value column is present, `count` instead counts only the rows whose value
cell parses numerically — see the counterexample.) -/
theorem executePlan_count_no_valueColumn (data : List Row) (plan : Plan)
    (hagg : plan.aggregation = some (str "count"))
    (hval : truthyS plan.valueColumn = false) :
    ∃ res, executePlan data plan = some res ∧
      (∀ row ∈ res, ∃ k, 0 < contribCount data plan k ∧
        objGet row (str "count") =
          some (Cell.num (contribCount data plan k)) ∧
        (¬ (keyOf plan.groupByColumn = str "count") →
          objGet row (keyOf plan.groupByColumn) = some (Cell.str k))) ∧
      (∀ k, 0 < contribCount data plan k →
        ∃ row ∈ res, objGet row (str "count") =
          some (Cell.num (contribCount data plan k))) := by
  set gb := keyOf plan.groupByColumn with hgb
  set rowOf : Str × List ℚ → Row := fun p =>
    objSet (objSet [] gb (.str p.1)) (str "count") (.num (p.2.length : ℚ))
    with hrowOf
  set groups := buildGroups data plan with hgroups
  have hmain : ∀ k, lookupG groups k =
      (if 0 < contribCount data plan k then
        some (List.replicate (contribCount data plan k) 1) else none) := by
    intro k
    rw [hgroups]
    show lookupG (data.foldl (groupStep plan) []) k = _
    rw [buildGroups_count_lookup plan hagg hval data [] k]
    rfl
  have hnd : (groups.map Prod.fst).Nodup := by
    rw [hgroups]
    exact buildGroups_keys_nodup plan data [] (by simp)
  have hperm : sortByValueDesc (str "count") (groups.map rowOf) |>.Perm
      (groups.map rowOf) := List.perm_insertionSort _ _
  refine ⟨sortByValueDesc (str "count") (groups.map rowOf),
    executePlan_count_eval data plan hagg hval, ?_, ?_⟩
  · intro row hr
    have hr' : row ∈ groups.map rowOf := hperm.mem_iff.mp hr
    obtain ⟨p, hp, hpe⟩ := List.mem_map.mp hr'
    obtain ⟨k, vs⟩ := p
    have hlk : lookupG groups k = some vs :=
      lookupG_of_mem_nodup groups hnd k vs hp
    rw [hmain k] at hlk
    by_cases hcnt : 0 < contribCount data plan k
    · rw [if_pos hcnt] at hlk
      have hvs : vs = List.replicate (contribCount data plan k) 1 :=
        (Option.some.inj hlk).symm
      refine ⟨k, hcnt, ?_, ?_⟩
      · rw [← hpe, hrowOf]
        simp only [objGet_objSet_pair]
        rw [hvs, List.length_replicate]
      · intro hne
        rw [← hpe, hrowOf]
        exact objGet_objSet_pair_fst gb (str "count") _ _ hne
    · rw [if_neg hcnt] at hlk
      cases hlk
  · intro k hcnt
    have hlk : lookupG groups k =
        some (List.replicate (contribCount data plan k) 1) := by
      rw [hmain k, if_pos hcnt]
    have hmem : (k, List.replicate (contribCount data plan k) 1) ∈ groups :=
      mem_of_lookupG groups k _ hlk
    refine ⟨rowOf (k, List.replicate (contribCount data plan k) 1),
      hperm.mem_iff.mpr (List.mem_map_of_mem rowOf hmem), ?_⟩
    rw [hrowOf]
    simp only [objGet_objSet_pair]
    rw [List.length_replicate]

/-- Claim C3 witness: the amended theorem applied to the one-row dataset and
the `count` plan without a value column. -/
theorem executePlan_count_no_valueColumn_witness :
    ∃ res, executePlan exCountData exCountPlan = some res ∧
      (∀ row ∈ res, ∃ k, 0 < contribCount exCountData exCountPlan k ∧
        objGet row (str "count") =
          some (Cell.num (contribCount exCountData exCountPlan k)) ∧
        (¬ (keyOf exCountPlan.groupByColumn = str "count") →
          objGet row (keyOf exCountPlan.groupByColumn) = some (Cell.str k))) ∧
      (∀ k, 0 < contribCount exCountData exCountPlan k →
        ∃ row ∈ res, objGet row (str "count") =
          some (Cell.num (contribCount exCountData exCountPlan k))) :=
  executePlan_count_no_valueColumn exCountData exCountPlan rfl rfl

/-! ## Claim C8 -/

/-- Claim C8 counterexample: Stage B can return plans that do not coincide
(by title) with any Stage A candidate.  With one valid candidate `A` and two
refined plans `B`, `C`, the backfill guard `candidatePlans.length >
finalPlans.length` (1 > 2) is false, so no backfill happens: the result is
`[B, C]` — fewer than 4 plans although the unselected Stage A candidate `A`
was available, contradicting the claimed backfill-until-4-or-exhausted
policy. -/
theorem generateAnalysisPlans_no_backfill_counterexample :
    generateAnalysisPlansCore [exPlanA] exSampleRows [exPlanB, exPlanC] =
      [exPlanB, exPlanC] ∧
    exPlanA ∉ generateAnalysisPlansCore [exPlanA] exSampleRows [exPlanB, exPlanC] ∧
    (generateAnalysisPlansCore [exPlanA] exSampleRows [exPlanB, exPlanC]).length < 4 := by
  refine ⟨?_, ?_, ?_⟩ <;> decide

/-- Claim C8 as amended: the final list never exceeds 12 plans; and whenever
Stage B yields fewer than 4 plans *and Stage A produced more candidates than
Stage B selected*, the result is the Stage B list followed by the Stage A
candidates whose titles were not selected, in Stage A order, until the list
reaches 4 plans or those candidates are exhausted. -/
theorem generateAnalysisPlans_cap_and_backfill (candidatesRaw refinedRaw : List Plan)
    (sampleData : List Row) :
    (generateAnalysisPlansCore candidatesRaw sampleData refinedRaw).length ≤ 12 ∧
    (¬ ((candidatesRaw.filter isValidPlan) = []) →
     ¬ (((candidatesRaw.filter isValidPlan).filterMap (reviewSample sampleData)) = []) →
     (refinedRaw.filter isValidPlan).length < 4 →
     (refinedRaw.filter isValidPlan).length < (candidatesRaw.filter isValidPlan).length →
       (generateAnalysisPlansCore candidatesRaw sampleData refinedRaw).take
           (refinedRaw.filter isValidPlan).length = refinedRaw.filter isValidPlan ∧
       ((generateAnalysisPlansCore candidatesRaw sampleData refinedRaw).drop
           (refinedRaw.filter isValidPlan).length).Sublist
         (candidatesRaw.filter isValidPlan) ∧
       (∀ p ∈ (generateAnalysisPlansCore candidatesRaw sampleData refinedRaw).drop
           (refinedRaw.filter isValidPlan).length,
         ¬ (((refinedRaw.filter isValidPlan).map (fun q => q.title)).contains p.title = true)) ∧
       (generateAnalysisPlansCore candidatesRaw sampleData refinedRaw).length =
         min 4 ((refinedRaw.filter isValidPlan).length +
           ((candidatesRaw.filter isValidPlan).filter (fun p =>
             !(((refinedRaw.filter isValidPlan).map (fun q => q.title)).contains p.title))).length)) := by
  set C := candidatesRaw.filter isValidPlan with hC
  set R := refinedRaw.filter isValidPlan with hR
  set fallback := C.filter (fun p => !((R.map (fun q => q.title)).contains p.title))
    with hfallback
  constructor
  · unfold generateAnalysisPlansCore
    rw [← hC, ← hR]
    split_ifs with h1 h2
    · simp
    · calc (C.take 4).length ≤ 4 := by rw [List.length_take]; omega
        _ ≤ 12 := by omega
    · rw [List.length_take]; omega
  · intro hne hrev hlt4 hltC
    have hcore : generateAnalysisPlansCore candidatesRaw sampleData refinedRaw =
        (R ++ fallback.take (4 - R.length)).take 12 := by
      unfold generateAnalysisPlansCore backfillPlans
      rw [← hC, ← hR, ← hfallback]
      rw [if_neg (by simpa [List.isEmpty_iff] using hne),
        if_neg (by simpa [List.isEmpty_iff] using hrev),
        if_pos (by simp only [Bool.and_eq_true, decide_eq_true_eq]
                   exact ⟨hlt4, hltC⟩)]
    have hlenpre : (R ++ fallback.take (4 - R.length)).length ≤ 4 := by
      rw [List.length_append, List.length_take]
      omega
    have hid : (R ++ fallback.take (4 - R.length)).take 12 =
        R ++ fallback.take (4 - R.length) :=
      List.take_of_length_le (by omega)
    rw [hcore, hid]
    refine ⟨List.take_left R _, ?_, ?_, ?_⟩
    · rw [List.drop_left]
      exact (List.take_sublist _ _).trans (List.filter_sublist C)
    · intro p hp
      rw [List.drop_left] at hp
      have hpf : p ∈ fallback := List.mem_of_mem_take hp
      rw [hfallback] at hpf
      have := (List.mem_filter.mp hpf).2
      simpa using this
    · rw [List.length_append, List.length_take]
      omega

/-- Claim C8 witness: the amended theorem applied to two valid candidates
`A`, `B`, one refined plan `C`, and a one-row sample (so the guard holds and
the backfill appends `A` and `B` after `C`). -/
theorem generateAnalysisPlans_cap_and_backfill_witness :
    ¬ (([exPlanA, exPlanB].filter isValidPlan) = []) ∧
    ¬ ((([exPlanA, exPlanB].filter isValidPlan).filterMap
        (reviewSample exSampleRows)) = []) ∧
    ([exPlanC].filter isValidPlan).length < 4 ∧
    ([exPlanC].filter isValidPlan).length <
      ([exPlanA, exPlanB].filter isValidPlan).length ∧
    ((generateAnalysisPlansCore [exPlanA, exPlanB] exSampleRows [exPlanC]).length ≤ 12 ∧
     ((generateAnalysisPlansCore [exPlanA, exPlanB] exSampleRows [exPlanC]).take
         ([exPlanC].filter isValidPlan).length = [exPlanC].filter isValidPlan ∧
      ((generateAnalysisPlansCore [exPlanA, exPlanB] exSampleRows [exPlanC]).drop
          ([exPlanC].filter isValidPlan).length).Sublist
        ([exPlanA, exPlanB].filter isValidPlan) ∧
      (∀ p ∈ (generateAnalysisPlansCore [exPlanA, exPlanB] exSampleRows [exPlanC]).drop
          ([exPlanC].filter isValidPlan).length,
        ¬ ((([exPlanC].filter isValidPlan).map (fun q => q.title)).contains p.title = true)) ∧
      (generateAnalysisPlansCore [exPlanA, exPlanB] exSampleRows [exPlanC]).length =
        min 4 (([exPlanC].filter isValidPlan).length +
          (([exPlanA, exPlanB].filter isValidPlan).filter (fun p =>
            !((([exPlanC].filter isValidPlan).map (fun q => q.title)).contains p.title))).length))) := by
  refine ⟨by decide, by decide, by decide, by decide, ?_⟩
  have h := generateAnalysisPlans_cap_and_backfill [exPlanA, exPlanB] [exPlanC] exSampleRows
  exact ⟨h.1, h.2 (by decide) (by decide) (by decide) (by decide)⟩

/-! ## Claim C7 -/

/-! ### Digit rendering round-trip -/

theorem digitChar_spec (k : Nat) (h : k < 10) :
    (Char.ofNat (48 + k)).isDigit = true ∧ (Char.ofNat (48 + k)).toNat = 48 + k := by
  interval_cases k <;> exact ⟨by decide, by decide⟩

theorem natToStrAux_digits : ∀ (fuel n : Nat), n < fuel →
    ∀ c ∈ natToStrAux fuel n, c.isDigit = true := by
  intro fuel
  induction fuel with
  | zero => intro n h; omega
  | succ f ih =>
    intro n h c hc
    simp only [natToStrAux] at hc
    by_cases h10 : n < 10
    · rw [if_pos h10] at hc
      simp only [List.mem_singleton] at hc
      subst hc
      exact (digitChar_spec n h10).1
    · rw [if_neg h10] at hc
      rcases List.mem_append.mp hc with h1 | h2
      · exact ih (n / 10) (by omega) c h1
      · simp only [List.mem_singleton] at h2
        subst h2
        exact (digitChar_spec (n % 10) (by omega)).1

theorem natToStrAux_ne_nil (fuel n : Nat) (h : n < fuel) : natToStrAux fuel n ≠ [] := by
  cases fuel with
  | zero => omega
  | succ f =>
    simp only [natToStrAux]
    split_ifs with h10
    · simp
    · simp

theorem natToStrAux_foldl : ∀ (fuel n : Nat), n < fuel → ∀ a : Nat,
    (natToStrAux fuel n).foldl (fun a c => 10 * a + (c.toNat - 48)) a
      = a * 10 ^ (natToStrAux fuel n).length + n := by
  intro fuel
  induction fuel with
  | zero => intro n h; omega
  | succ f ih =>
    intro n h a
    simp only [natToStrAux]
    by_cases h10 : n < 10
    · rw [if_pos h10]
      simp only [List.foldl_cons, List.foldl_nil, List.length_cons, List.length_nil]
      rw [(digitChar_spec n h10).2]
      simp only [pow_one, zero_add]
      omega
    · rw [if_neg h10]
      rw [List.foldl_append, ih (n / 10) (by omega) a]
      simp only [List.foldl_cons, List.foldl_nil, List.length_append, List.length_cons,
        List.length_nil]
      rw [(digitChar_spec (n % 10) (by omega)).2]
      rw [pow_succ]
      have hmul : a * (10 ^ (natToStrAux f (n / 10)).length * 10)
          = 10 * (a * 10 ^ (natToStrAux f (n / 10)).length) := by ring
      rw [hmul]
      omega

theorem natToStr_digits (n : Nat) : ∀ c ∈ natToStr n, c.isDigit = true :=
  natToStrAux_digits (n + 1) n (by omega)

theorem natToStr_cons (n : Nat) : ∃ c t, natToStr n = c :: t ∧ c.isDigit = true := by
  cases hn : natToStr n with
  | nil => exact absurd hn (natToStrAux_ne_nil (n + 1) n (by omega))
  | cons c t =>
    refine ⟨c, t, rfl, natToStr_digits n c ?_⟩
    rw [hn]
    exact List.mem_cons_self c t

theorem digitsToNat_natToStr (n : Nat) : digitsToNat (natToStr n) = n := by
  have h := natToStrAux_foldl (n + 1) n (by omega) 0
  simpa [digitsToNat, natToStr] using h

theorem takeWhile_dropWhile_append (p : Char → Bool) :
    ∀ (l r : Str), (∀ c ∈ l, p c = true) → (∀ c t, r = c :: t → p c = false) →
      (l ++ r).takeWhile p = l ∧ (l ++ r).dropWhile p = r := by
  intro l
  induction l with
  | nil =>
    intro r _ hr
    cases r with
    | nil => simp
    | cons c t => simp [List.takeWhile_cons, List.dropWhile_cons, hr c t rfl]
  | cons a l ih =>
    intro r hl hr
    have ha : p a = true := hl a (List.mem_cons_self a l)
    obtain ⟨h1, h2⟩ := ih r (fun c hc => hl c (List.mem_cons_of_mem a hc)) hr
    simp [List.takeWhile_cons, List.dropWhile_cons, ha, h1, h2]

theorem parseDigits_natToStr (m : Nat) (rest : Str) (hrest : noDigitHead rest = true) :
    parseDigits (natToStr m ++ rest) = some (m, rest) := by
  obtain ⟨htake, hdrop⟩ := takeWhile_dropWhile_append Char.isDigit (natToStr m) rest
    (natToStr_digits m)
    (by
      intro c t hct
      subst hct
      simpa [noDigitHead] using hrest)
  simp only [parseDigits, htake, hdrop]
  rw [if_neg (by simpa [List.isEmpty_iff] using natToStrAux_ne_nil (m + 1) m (by omega))]
  rw [digitsToNat_natToStr]

/-! ### String escaping round-trip -/

theorem hexVal_hexDig (d : Nat) (h : d < 16) : hexVal (hexDig d) = some d := by
  interval_cases d <;> decide

theorem parseStrBody_escapeChar (c : Char) (X : Str) :
    parseStrBody (escapeChar c ++ X) = (parseStrBody X).map (fun p => (c :: p.1, p.2)) := by
  unfold escapeChar
  split_ifs with h1 h2 h3 h4 h5 h6 h7 h8
  · subst h1; rfl
  · subst h2; rfl
  · subst h3; rfl
  · subst h4; rfl
  · subst h5; rfl
  · subst h6; rfl
  · subst h7; rfl
  · have hq : hexVal (hexDig (c.toNat / 16)) = some (c.toNat / 16) :=
      hexVal_hexDig _ (by omega)
    have hr : hexVal (hexDig (c.toNat % 16)) = some (c.toNat % 16) :=
      hexVal_hexDig _ (by omega)
    have h0 : hexVal '0' = some 0 := by decide
    have harith : ((0 * 16 + 0) * 16 + c.toNat / 16) * 16 + c.toNat % 16 = c.toNat := by
      omega
    simp only [parseStrBody, List.cons_append, List.nil_append, h0, hq, hr, harith,
      Char.ofNat_toNat]
    rfl
  · show parseStrBody (c :: X) = _
    simp [parseStrBody, h1, h2]

theorem parseStrBody_escape : ∀ (s rest : Str),
    parseStrBody (escapeList s ++ '"' :: rest) = some (s, rest) := by
  intro s
  induction s with
  | nil => intro rest; rfl
  | cons c cs ih =>
    intro rest
    show parseStrBody ((escapeChar c ++ escapeList cs) ++ '"' :: rest) = _
    rw [List.append_assoc, parseStrBody_escapeChar, ih]
    rfl

/-! ### Heads of rendered values -/

theorem digit_ne_starts (c : Char) (h : c.isDigit = true) :
    ¬(c = 'n') ∧ ¬(c = 't') ∧ ¬(c = 'f') ∧ ¬(c = '"') ∧ ¬(c = '[') ∧ ¬(c = '{') ∧
      ¬(c = '-') ∧ ¬(c = ']') := by
  refine ⟨?_, ?_, ?_, ?_, ?_, ?_, ?_, ?_⟩ <;> (intro h2; subst h2; exact absurd h (by decide))

theorem jsonStringify_head (v : Jv) :
    ∃ c t, jsonStringify v = c :: t ∧ ¬(c = ']') := by
  cases v with
  | null => exact ⟨'n', str "ull", rfl, by decide⟩
  | bool b =>
    cases b with
    | false => exact ⟨'f', str "alse", rfl, by decide⟩
    | true => exact ⟨'t', str "rue", rfl, by decide⟩
  | int n =>
    show ∃ c t, intToStr n = c :: t ∧ ¬(c = ']')
    unfold intToStr
    split_ifs with hneg
    · exact ⟨'-', natToStr n.natAbs, rfl, by decide⟩
    · obtain ⟨c, t, hct, hcd⟩ := natToStr_cons n.natAbs
      exact ⟨c, t, hct, (digit_ne_starts c hcd).2.2.2.2.2.2.2⟩
  | str s => exact ⟨'"', escapeList s ++ ['"'], rfl, by decide⟩
  | arr xs => exact ⟨'[', stringifyElems xs ++ [']'], rfl, by decide⟩
  | obj fs => exact ⟨'{', stringifyFields fs ++ ['}'], rfl, by decide⟩

theorem jsonStringify_length_pos (v : Jv) : 0 < (jsonStringify v).length := by
  obtain ⟨c, t, h, _⟩ := jsonStringify_head v
  rw [h]
  simp

/-! ### Step reductions of the value parser on symbolic heads -/

theorem parseVal_arr_step (f : Nat) (c : Char) (t : Str) (hc : ¬(c = ']')) :
    parseVal (f + 1) ('[' :: c :: t)
      = (parseElems f (c :: t)).map (fun p => (Jv.arr p.1, p.2)) := by
  simp [parseVal, hc]

theorem parseVal_digit_step (f : Nat) (c : Char) (t : Str)
    (h1 : ¬(c = 'n')) (h2 : ¬(c = 't')) (h3 : ¬(c = 'f')) (h4 : ¬(c = '"'))
    (h5 : ¬(c = '[')) (h6 : ¬(c = '{')) (h7 : ¬(c = '-')) (hd : c.isDigit = true) :
    parseVal (f + 1) (c :: t)
      = (parseDigits (c :: t)).map (fun p => (Jv.int (p.1 : Int), p.2)) := by
  simp [parseVal, h1, h2, h3, h4, h5, h6, h7, hd]

theorem stringifyElems_cons (x : Jv) (xs : List Jv) :
    ∃ T, stringifyElems (x :: xs) = jsonStringify x ++ T := by
  cases xs with
  | nil => exact ⟨[], by simp [stringifyElems]⟩
  | cons y ys => exact ⟨',' :: stringifyElems (y :: ys), rfl⟩

/-! ### The parser inverts the serializer -/

theorem parse_stringify_all : ∀ fuel : Nat,
    (∀ (v : Jv) (rest : Str), (jsonStringify v).length ≤ fuel → noDigitHead rest = true →
      parseVal fuel (jsonStringify v ++ rest) = some (v, rest)) ∧
    (∀ (x : Jv) (xs : List Jv) (rest : Str), (stringifyElems (x :: xs)).length < fuel →
      parseElems fuel (stringifyElems (x :: xs) ++ ']' :: rest) = some (x :: xs, rest)) ∧
    (∀ (k : Str) (v : Jv) (fs : List (Str × Jv)) (rest : Str),
      (stringifyFields ((k, v) :: fs)).length < fuel →
      parseFields fuel (stringifyFields ((k, v) :: fs) ++ '}' :: rest)
        = some ((k, v) :: fs, rest)) := by
  intro fuel
  induction fuel with
  | zero =>
    refine ⟨?_, ?_, ?_⟩
    · intro v rest hlen _
      have := jsonStringify_length_pos v
      omega
    · intro x xs rest h
      omega
    · intro k v fs rest h
      omega
  | succ f ih =>
    obtain ⟨ihV, ihE, ihF⟩ := ih
    refine ⟨?_, ?_, ?_⟩
    · intro v rest hlen hrest
      cases v with
      | null => rfl
      | bool b => cases b <;> rfl
      | int n =>
        by_cases hneg : n < 0
        · have hstr : jsonStringify (.int n) = '-' :: natToStr n.natAbs := by
            show intToStr n = _
            unfold intToStr
            rw [if_pos hneg]
          rw [hstr, List.cons_append]
          have hstep : parseVal (f + 1) ('-' :: (natToStr n.natAbs ++ rest))
              = (parseDigits (natToStr n.natAbs ++ rest)).map
                  (fun p => (Jv.int (-(p.1 : Int)), p.2)) := rfl
          rw [hstep, parseDigits_natToStr _ _ hrest]
          have hval : -((n.natAbs : Nat) : Int) = n := by omega
          simp only [Option.map_some']
          rw [hval]
        · have hstr : jsonStringify (.int n) = natToStr n.natAbs := by
            show intToStr n = _
            unfold intToStr
            rw [if_neg hneg]
          obtain ⟨c, t, hct, hcd⟩ := natToStr_cons n.natAbs
          obtain ⟨h1, h2, h3, h4, h5, h6, h7, _⟩ := digit_ne_starts c hcd
          rw [hstr, hct, List.cons_append,
            parseVal_digit_step f c _ h1 h2 h3 h4 h5 h6 h7 hcd,
            ← List.cons_append, ← hct, parseDigits_natToStr _ _ hrest]
          have hval : ((n.natAbs : Nat) : Int) = n := by omega
          simp only [Option.map_some']
          rw [hval]
      | str s =>
        have hstr : jsonStringify (.str s) ++ rest = '"' :: (escapeList s ++ '"' :: rest) := by
          show ('"' :: (escapeList s ++ ['"'])) ++ rest = _
          simp [List.append_assoc]
        rw [hstr]
        have hstep : parseVal (f + 1) ('"' :: (escapeList s ++ '"' :: rest))
            = (parseStrBody (escapeList s ++ '"' :: rest)).map
                (fun p => (Jv.str p.1, p.2)) := rfl
        rw [hstep, parseStrBody_escape]
        rfl
      | arr xs =>
        cases xs with
        | nil => rfl
        | cons x xs' =>
          obtain ⟨c, t, hct, hcne⟩ := jsonStringify_head x
          obtain ⟨T, hT⟩ := stringifyElems_cons x xs'
          have harr : jsonStringify (.arr (x :: xs')) ++ rest
              = '[' :: (stringifyElems (x :: xs') ++ ']' :: rest) := by
            show ('[' :: (stringifyElems (x :: xs') ++ [']'])) ++ rest = _
            simp [List.append_assoc]
          have hcons : stringifyElems (x :: xs') ++ ']' :: rest
              = c :: (t ++ (T ++ ']' :: rest)) := by
            rw [hT, hct]
            simp [List.append_assoc]
          rw [harr, hcons, parseVal_arr_step f c _ hcne, ← hcons]
          have hlen2 : (stringifyElems (x :: xs')).length < f := by
            have h0 : jsonStringify (.arr (x :: xs'))
                = '[' :: (stringifyElems (x :: xs') ++ [']']) := rfl
            rw [h0] at hlen
            simp only [List.length_cons, List.length_append, List.length_nil] at hlen
            omega
          rw [ihE x xs' rest hlen2]
          rfl
      | obj fs =>
        cases fs with
        | nil => rfl
        | cons kv fs' =>
          obtain ⟨k, v⟩ := kv
          have hT : ∃ T, stringifyFields ((k, v) :: fs') = '"' :: T := by
            cases fs' with
            | nil => exact ⟨_, rfl⟩
            | cons g gs => exact ⟨_, rfl⟩
          obtain ⟨T, hT⟩ := hT
          have hobj : jsonStringify (.obj ((k, v) :: fs')) ++ rest
              = '{' :: (stringifyFields ((k, v) :: fs') ++ '}' :: rest) := by
            show ('{' :: (stringifyFields ((k, v) :: fs') ++ ['}'])) ++ rest = _
            simp [List.append_assoc]
          rw [hobj, hT, List.cons_append]
          have hstep : parseVal (f + 1) ('{' :: '"' :: (T ++ '}' :: rest))
              = (parseFields f ('"' :: (T ++ '}' :: rest))).map
                  (fun p => (Jv.obj p.1, p.2)) := rfl
          rw [hstep, ← List.cons_append, ← hT]
          have hlen2 : (stringifyFields ((k, v) :: fs')).length < f := by
            have h0 : jsonStringify (.obj ((k, v) :: fs'))
                = '{' :: (stringifyFields ((k, v) :: fs') ++ ['}']) := rfl
            rw [h0] at hlen
            simp only [List.length_cons, List.length_append, List.length_nil] at hlen
            omega
          rw [ihF k v fs' rest hlen2]
          rfl
    · intro x xs rest hlen
      cases xs with
      | nil =>
        have hx : stringifyElems [x] = jsonStringify x := rfl
        rw [hx] at hlen
        have hv := ihV x (']' :: rest) (by omega) (by rfl)
        show parseElems (f + 1) (jsonStringify x ++ ']' :: rest) = some ([x], rest)
        simp only [parseElems, hv]
      | cons y ys =>
        have hx : stringifyElems (x :: y :: ys)
            = jsonStringify x ++ ',' :: stringifyElems (y :: ys) := rfl
        have hlen2 : (jsonStringify x).length ≤ f ∧ (stringifyElems (y :: ys)).length < f := by
          rw [hx] at hlen
          simp only [List.length_append, List.length_cons] at hlen
          constructor <;> omega
        have hv := ihV x (',' :: (stringifyElems (y :: ys) ++ ']' :: rest)) hlen2.1 (by rfl)
        have he := ihE y ys rest hlen2.2
        have harg : stringifyElems (x :: y :: ys) ++ ']' :: rest
            = jsonStringify x ++ (',' :: (stringifyElems (y :: ys) ++ ']' :: rest)) := by
          rw [hx]
          simp [List.append_assoc]
        rw [harg]
        simp only [parseElems, hv, he, Option.map_some']
    · intro k v fs rest hlen
      cases fs with
      | nil =>
        have h0 : stringifyFields [(k, v)]
            = '"' :: (escapeList k ++ ['"']) ++ ':' :: jsonStringify v := rfl
        have harg : stringifyFields [(k, v)] ++ '}' :: rest
            = '"' :: (escapeList k ++ '"' :: (':' :: (jsonStringify v ++ '}' :: rest))) := by
          rw [h0]
          simp [List.append_assoc]
        have hlenv : (jsonStringify v).length ≤ f := by
          rw [h0] at hlen
          simp only [List.length_append, List.length_cons, List.length_nil] at hlen
          omega
        have hk := parseStrBody_escape k (':' :: (jsonStringify v ++ '}' :: rest))
        have hv := ihV v ('}' :: rest) hlenv (by rfl)
        rw [harg]
        simp only [parseFields, hk, hv]
      | cons kv2 fs2 =>
        obtain ⟨k2, v2⟩ := kv2
        have h0 : stringifyFields ((k, v) :: (k2, v2) :: fs2)
            = '"' :: (escapeList k ++ ['"']) ++ ':' :: jsonStringify v
                ++ ',' :: stringifyFields ((k2, v2) :: fs2) := rfl
        have harg : stringifyFields ((k, v) :: (k2, v2) :: fs2) ++ '}' :: rest
            = '"' :: (escapeList k ++ '"' :: (':' :: (jsonStringify v
                ++ ',' :: (stringifyFields ((k2, v2) :: fs2) ++ '}' :: rest)))) := by
          rw [h0]
          simp [List.append_assoc]
        have hbounds : (jsonStringify v).length ≤ f ∧
            (stringifyFields ((k2, v2) :: fs2)).length < f := by
          rw [h0] at hlen
          simp only [List.length_append, List.length_cons, List.length_nil] at hlen
          constructor <;> omega
        have hk := parseStrBody_escape k
          (':' :: (jsonStringify v ++ ',' :: (stringifyFields ((k2, v2) :: fs2) ++ '}' :: rest)))
        have hv := ihV v (',' :: (stringifyFields ((k2, v2) :: fs2) ++ '}' :: rest))
          hbounds.1 (by rfl)
        have hrec := ihF k2 v2 fs2 rest hbounds.2
        rw [harg]
        simp only [parseFields, hk, hv, hrec, Option.map_some']

theorem jsonParse_stringify (v : Jv) : jsonParse (jsonStringify v) = some v := by
  have h := (parse_stringify_all ((jsonStringify v).length + 1)).1 v [] (by omega) (by rfl)
  rw [List.append_nil] at h
  unfold jsonParse
  rw [h]

/-! ### Fence extraction on a fenced serialization -/

theorem findTriple_boundary : ∀ (J : Str), findTriple J = none →
    findTriple (J ++ ['\n', '`', '`', '`']) = some (J.length + 1) := by
  intro J
  induction J with
  | nil => intro _; rfl
  | cons c J' ih =>
    intro h
    by_cases hc : c = '`'
    · subst hc
      rcases J' with _ | ⟨c2, J''⟩
      · rfl
      · by_cases hc2 : c2 = '`'
        · subst hc2
          rcases J'' with _ | ⟨c3, J'''⟩
          · rfl
          · by_cases hc3 : c3 = '`'
            · subst hc3
              rw [show findTriple ('`' :: '`' :: '`' :: J''') = some 0 from rfl] at h
              exact absurd h (by simp)
            · have hJ : findTriple ('`' :: c3 :: J''') = none := by
                have hstep : findTriple ('`' :: '`' :: c3 :: J''')
                    = (findTriple ('`' :: c3 :: J''')).map (· + 1) := by
                  simp [findTriple, hc3]
                rw [hstep] at h
                exact Option.map_eq_none'.mp h
              have hrec := ih hJ
              have hstep2 : findTriple (('`' :: '`' :: c3 :: J''') ++ ['\n', '`', '`', '`'])
                  = (findTriple (('`' :: c3 :: J''') ++ ['\n', '`', '`', '`'])).map (· + 1) := by
                simp [findTriple, hc3, List.cons_append]
              rw [hstep2, hrec]
              simp only [Option.map_some', List.length_cons]
        · have hJ : findTriple (c2 :: J'') = none := by
            have hstep : findTriple ('`' :: c2 :: J'')
                = (findTriple (c2 :: J'')).map (· + 1) := by
              simp [findTriple, hc2]
            rw [hstep] at h
            exact Option.map_eq_none'.mp h
          have hrec := ih hJ
          have hstep2 : findTriple (('`' :: c2 :: J'') ++ ['\n', '`', '`', '`'])
              = (findTriple ((c2 :: J'') ++ ['\n', '`', '`', '`'])).map (· + 1) := by
            simp [findTriple, hc2, List.cons_append]
          rw [hstep2, hrec]
          simp only [Option.map_some', List.length_cons]
    · have hJ : findTriple J' = none := by
        have hstep : findTriple (c :: J') = (findTriple J').map (· + 1) := by
          simp [findTriple, hc]
        rw [hstep] at h
        exact Option.map_eq_none'.mp h
      have hrec := ih hJ
      have hstep2 : findTriple ((c :: J') ++ ['\n', '`', '`', '`'])
          = (findTriple (J' ++ ['\n', '`', '`', '`'])).map (· + 1) := by
        simp [findTriple, hc, List.cons_append]
      rw [hstep2, hrec]
      simp only [Option.map_some', List.length_cons]

theorem trimTrail_ws_suffix (l : Str) (c : Char) (hc : jsWs c = false) :
    trimTrail ((l ++ [c]) ++ ['\n']) = l ++ [c] := by
  have hnl : jsWs '\n' = true := by decide
  unfold trimTrail
  rw [List.reverse_append, List.reverse_append]
  simp [List.dropWhile_cons, hc, hnl]

theorem trimTrail_nonws_last (l : Str) (c : Char) (hc : jsWs c = false) :
    trimTrail (l ++ [c]) = l ++ [c] := by
  unfold trimTrail
  rw [List.reverse_append]
  simp [List.dropWhile_cons, hc]

theorem extractFence_fenced (E : Str)
    (hb : findTriple (('[' :: (E ++ [']'])) ++ ['\n', '`', '`', '`'])
        = some (('[' :: (E ++ [']'])).length + 1)) :
    extractFence ('`' :: '`' :: '`' :: 'j' :: 's' :: 'o' :: 'n' :: '\n'
        :: (('[' :: (E ++ [']'])) ++ ['\n', '`', '`', '`']))
      = some ('[' :: (E ++ [']'])) := by
  have h1 : findTriple ('`' :: '`' :: '`' :: 'j' :: 's' :: 'o' :: 'n' :: '\n'
      :: (('[' :: (E ++ [']'])) ++ ['\n', '`', '`', '`'])) = some 0 := rfl
  simp only [extractFence, h1]
  have h3 : (str "json").isPrefixOf (('`' :: '`' :: '`' :: 'j' :: 's' :: 'o' :: 'n' :: '\n'
      :: (('[' :: (E ++ [']'])) ++ ['\n', '`', '`', '`'])).drop (0 + 3)) = true := rfl
  rw [if_pos h3]
  have h4 : (('`' :: '`' :: '`' :: 'j' :: 's' :: 'o' :: 'n' :: '\n'
        :: (('[' :: (E ++ [']'])) ++ ['\n', '`', '`', '`'])).drop (0 + 3)).drop 4
      = '\n' :: (('[' :: (E ++ [']'])) ++ ['\n', '`', '`', '`']) := rfl
  rw [h4]
  have h5 : List.dropWhile jsWs ('\n' :: (('[' :: (E ++ [']'])) ++ ['\n', '`', '`', '`']))
      = ('[' :: (E ++ [']'])) ++ ['\n', '`', '`', '`'] := by
    rw [List.dropWhile_cons]
    rw [if_pos (by decide : jsWs '\n' = true)]
    rw [List.cons_append, List.dropWhile_cons]
    rw [if_neg (by decide : ¬(jsWs '[' = true))]
  rw [h5, hb]
  have h7 : ((('[' :: (E ++ [']'])) ++ ['\n', '`', '`', '`']).take
        (('[' :: (E ++ [']'])).length + 1))
      = ('[' :: (E ++ [']'])) ++ ['\n'] := by
    rw [List.take_append 1]
    rfl
  show some (trimTrail ((('[' :: (E ++ [']'])) ++ ['\n', '`', '`', '`']).take
      (('[' :: (E ++ [']'])).length + 1)))
    = some ('[' :: (E ++ [']']))
  rw [h7]
  have h8 : trimTrail (('[' :: (E ++ [']'])) ++ ['\n']) = '[' :: (E ++ [']']) := by
    have h9 := trimTrail_ws_suffix ('[' :: E) ']' (by decide)
    simpa [List.append_assoc] using h9
  rw [h8]

theorem robustly_of_fence (s g : Str) (xs : List Jv)
    (hf : extractFence (jsTrim s) = some g)
    (hne : g.isEmpty = false)
    (hp : jsonParse g = some (Jv.arr xs)) :
    robustlyParseJsonArray s = some xs := by
  simp only [robustlyParseJsonArray, hf, hne, Bool.not_false, if_true, hp]

/-- Claim C7 counterexample: wrapping `JSON.stringify(plans)` in a markdown
fence does not always round-trip.  For the plan array `exPlansBad`, whose
title contains three consecutive backticks, the lazy fence regex ends the
capture group at the backticks inside the JSON string literal, the truncated
capture fails to parse, and `robustlyParseJsonArray` throws (returns `none`)
instead of recovering the plans. -/
theorem robustlyParseJsonArray_fence_counterexample :
    robustlyParseJsonArray
        (str "```json\n" ++ jsonStringify (Jv.arr exPlansBad) ++ str "\n```") = none ∧
    ¬(robustlyParseJsonArray
        (str "```json\n" ++ jsonStringify (Jv.arr exPlansBad) ++ str "\n```")
      = some exPlansBad) := by
  constructor
  · rfl
  · intro hcontra
    have h1 : robustlyParseJsonArray
        (str "```json\n" ++ jsonStringify (Jv.arr exPlansBad) ++ str "\n```")
          = (none : Option (List Jv)) := rfl
    rw [h1] at hcontra
    exact Option.noConfusion hcontra

/-- Claim C7 as amended: for every array of plan objects whose
`JSON.stringify` serialization contains no three consecutive backticks,
`robustlyParseJsonArray` applied to the serialization wrapped in a markdown
code fence returns an array equal to the original plans. -/
theorem robustlyParseJsonArray_roundtrip (xs : List Jv)
    (h : findTriple (jsonStringify (Jv.arr xs)) = none) :
    robustlyParseJsonArray
        (str "```json\n" ++ jsonStringify (Jv.arr xs) ++ str "\n```") = some xs := by
  have hJ : jsonStringify (Jv.arr xs) = '[' :: (stringifyElems xs ++ [']']) := rfl
  have hb := findTriple_boundary (jsonStringify (Jv.arr xs)) h
  rw [hJ] at hb
  have hfence := extractFence_fenced (stringifyElems xs) hb
  have htrim : jsTrim (str "```json\n" ++ jsonStringify (Jv.arr xs) ++ str "\n```")
      = '`' :: '`' :: '`' :: 'j' :: 's' :: 'o' :: 'n' :: '\n'
          :: (('[' :: (stringifyElems xs ++ [']'])) ++ ['\n', '`', '`', '`']) := by
    show jsTrim ('`' :: '`' :: '`' :: 'j' :: 's' :: 'o' :: 'n' :: '\n'
        :: (('[' :: (stringifyElems xs ++ [']'])) ++ ['\n', '`', '`', '`'])) = _
    unfold jsTrim
    rw [List.dropWhile_cons, if_neg (by decide : ¬(jsWs '`' = true))]
    have hform : '`' :: '`' :: '`' :: 'j' :: 's' :: 'o' :: 'n' :: '\n'
          :: (('[' :: (stringifyElems xs ++ [']'])) ++ ['\n', '`', '`', '`'])
        = ('`' :: '`' :: '`' :: 'j' :: 's' :: 'o' :: 'n' :: '\n'
            :: (('[' :: (stringifyElems xs ++ [']'])) ++ ['\n', '`', '`'])) ++ ['`'] := by
      simp [List.append_assoc]
    rw [hform]
    exact trimTrail_nonws_last _ '`' (by decide)
  have hne : ('[' :: (stringifyElems xs ++ [']'])).isEmpty = false := rfl
  have hp : jsonParse ('[' :: (stringifyElems xs ++ [']'])) = some (Jv.arr xs) :=
    jsonParse_stringify (Jv.arr xs)
  exact robustly_of_fence _ _ xs (by rw [htrim]; exact hfence) hne hp

/-- Claim C7 witness: the amended round-trip applied to the concrete
backtick-free plan array `exPlansGood`. -/
theorem robustlyParseJsonArray_roundtrip_witness :
    findTriple (jsonStringify (Jv.arr exPlansGood)) = none ∧
    robustlyParseJsonArray
        (str "```json\n" ++ jsonStringify (Jv.arr exPlansGood) ++ str "\n```")
      = some exPlansGood :=
  ⟨rfl, robustlyParseJsonArray_roundtrip exPlansGood rfl⟩
